import Mathlib

/-!
Shallow embedding of the davichat-api membership / fan-out core.

Tables (`users`, `conversations`, `conversation_participants`, `messages`)
are lists of rows; DynamoDB `Put` replaces the item with the same key or
appends, `Update` rewrites the named attributes of the keyed item (creating
it when absent, as DynamoDB upserts), `Delete` removes the keyed item,
`Query`/`Scan` filter the list.  ISO-8601 timestamp strings are modelled as
milliseconds since the epoch (`Nat`); their ordering and arithmetic agree
with the source's `new Date(t).getTime()` comparisons.  Each `new Date()`
in the source is a distinct clock read and becomes an explicit parameter.
Read-only user-name lookups that only decorate event payloads are elided;
payloads the claims never inspect are carried as `Payload.info`.
-/

namespace DaviChat

/-- Milliseconds since the epoch, standing for the ISO timestamp strings. -/
abbrev Timestamp := Nat

/-- JavaScript's `s.substring(0, n)`, over the string's character list
(code units modelled as characters). -/
def jsSubstring0 (s : String) (n : Nat) : String := ⟨s.data.take n⟩

/-- Row of the `conversation_participants` table (composite key
`conversationId`/`userId`).  `isActive` and `joinedAt` are `Option` because
an upsert via `updateParticipantReadStatus` creates a row carrying neither
attribute. -/
structure ParticipantRow where
  conversationId : String
  userId : String
  unreadCount : Nat
  lastReadAt : Timestamp
  isActive : Option Bool
  joinedAt : Option Timestamp
  deriving Repr, DecidableEq

/-- Row of the `conversations` table (`type` in the source is `convType`
here, `type` being reserved). -/
structure Conversation where
  id : String
  convType : String
  name : Option String
  description : Option String
  participants : List String
  createdBy : String
  createdAt : Timestamp
  updatedAt : Timestamp
  deriving Repr, DecidableEq

/-- Row of the `messages` table (composite key `id`/`conversationId`). -/
structure Message where
  id : String
  conversationId : String
  senderId : String
  content : String
  messageType : String
  timestamp : Timestamp
  isEdited : Bool
  isDeleted : Bool
  replyTo : Option String
  isReply : Bool
  updatedAt : Option Timestamp
  deriving Repr, DecidableEq

/-- The durable store: the three tables the claims are about. -/
structure Db where
  conversations : List Conversation
  participants : List ParticipantRow
  messages : List Message
  deriving Repr, DecidableEq

/-- The empty store (all tables freshly created). -/
def Db.empty : Db := ⟨[], [], []⟩

/-! ### DynamoDBService primitives -/

/-- `getConversation`: `GetCommand` on `conversations` by key `id`. -/
def getConversation (db : Db) (conversationId : String) : Option Conversation :=
  db.conversations.find? (fun c => c.id == conversationId)

/-- `createConversation`: `PutCommand` on `conversations`; stamps
`createdAt`/`updatedAt` and replaces any item with the same key. -/
def createConversation (db : Db) (now : Timestamp) (c : Conversation) : Db :=
  let item := { c with createdAt := now, updatedAt := now }
  if db.conversations.any (fun x => x.id == c.id) then
    { db with conversations :=
        db.conversations.map (fun x => if x.id == c.id then item else x) }
  else
    { db with conversations := db.conversations ++ [item] }

/-- `deleteConversation`: `DeleteCommand` on `conversations` by key `id`. -/
def deleteConversation (db : Db) (conversationId : String) : Db :=
  { db with conversations := db.conversations.filter (fun c => c.id != conversationId) }

/-- `getParticipant`: `GetCommand` on `conversation_participants` by the
composite key. -/
def getParticipant (db : Db) (conversationId userId : String) : Option ParticipantRow :=
  db.participants.find? (fun r => r.conversationId == conversationId && r.userId == userId)

/-- `getConversationParticipants`: `QueryCommand` on
`conversation_participants` by partition key `conversationId`.  No
filtering on `isActive` happens here, exactly as in the source. -/
def getConversationParticipants (db : Db) (conversationId : String) : List ParticipantRow :=
  db.participants.filter (fun r => r.conversationId == conversationId)

/-- The `participantData` argument of `addParticipant`; every call site in
the repository passes all three fields (`unreadCount: 0`,
`lastReadAt: now`, `isActive: true`), so the source's `|| 0` /
`!== undefined` defaults for absent fields collapse. -/
structure ParticipantData where
  unreadCount : Nat
  lastReadAt : Timestamp
  isActive : Bool
  deriving Repr, DecidableEq

/-- `addParticipant`: if the row exists, `UpdateCommand` rewrites
`unreadCount`, `lastReadAt`, `isActive` (and `updatedAt`); otherwise
`PutCommand` creates the row, stamping `joinedAt`. -/
def addParticipant (db : Db) (now : Timestamp) (conversationId userId : String)
    (pd : ParticipantData) : Db :=
  match getParticipant db conversationId userId with
  | some _ =>
    { db with participants := db.participants.map (fun r =>
        if r.conversationId == conversationId && r.userId == userId then
          { r with unreadCount := pd.unreadCount, lastReadAt := pd.lastReadAt,
                   isActive := some pd.isActive }
        else r) }
  | none =>
    { db with participants := db.participants ++
        [{ conversationId := conversationId, userId := userId,
           unreadCount := pd.unreadCount, lastReadAt := pd.lastReadAt,
           isActive := some pd.isActive, joinedAt := some now }] }

/-- `removeParticipant`: verifies the row exists (else throws
`'Participante no encontrado en la conversación'`), then `DeleteCommand`
removes it outright — a hard delete. -/
def removeParticipant (db : Db) (conversationId userId : String) : Except String Db :=
  match getParticipant db conversationId userId with
  | none => .error "Participante no encontrado en la conversación"
  | some _ => .ok { db with participants := db.participants.filter (fun r =>
      !(r.conversationId == conversationId && r.userId == userId)) }

/-- A `removeParticipant` call whose thrown error is caught and swallowed
by the caller (the retry loops in `handleLeaveGroup` and the cascade
cleanup loops). -/
def removeParticipantSwallowed (db : Db) (conversationId userId : String) : Db :=
  match removeParticipant db conversationId userId with
  | .ok db' => db'
  | .error _ => db

/-- `updateParticipantReadStatus`: `UpdateCommand` setting `unreadCount`
and `lastReadAt`; DynamoDB upserts, so a missing row is created carrying
only the key and the two attributes (no `isActive`, no `joinedAt`). -/
def updateParticipantReadStatus (db : Db) (conversationId userId : String)
    (unreadCount : Nat) (lastReadAt : Timestamp) : Db :=
  match getParticipant db conversationId userId with
  | some _ =>
    { db with participants := db.participants.map (fun r =>
        if r.conversationId == conversationId && r.userId == userId then
          { r with unreadCount := unreadCount, lastReadAt := lastReadAt }
        else r) }
  | none =>
    { db with participants := db.participants ++
        [{ conversationId := conversationId, userId := userId,
           unreadCount := unreadCount, lastReadAt := lastReadAt,
           isActive := none, joinedAt := none }] }

/-- `createMessage`: `PutCommand` on `messages` whose item is
`{...messageData, timestamp: new Date().toISOString()}` — the stored
`timestamp` is the persist-time clock read, overwriting whatever the
caller supplied. -/
def createMessage (db : Db) (persistNow : Timestamp) (m : Message) : Db :=
  let item := { m with timestamp := persistNow }
  if db.messages.any (fun x => x.id == m.id && x.conversationId == m.conversationId) then
    { db with messages := db.messages.map (fun x =>
        if x.id == m.id && x.conversationId == m.conversationId then item else x) }
  else
    { db with messages := db.messages ++ [item] }

/-- `getConversationMessages`: `ScanCommand` on `messages` filtered by
`conversationId`. -/
def getConversationMessages (db : Db) (conversationId : String) : List Message :=
  db.messages.filter (fun m => m.conversationId == conversationId)

/-- `getMessage`: `ScanCommand` filtered by `id`, returning the first
item found. -/
def getMessage (db : Db) (messageId : String) : Option Message :=
  db.messages.find? (fun m => m.id == messageId)

/-- `updateMessage`: scans for the message by `id` (throws
`'Message not found'` when absent), then `UpdateCommand` sets `content`,
`isEdited := true` and `updatedAt` on the item with that composite key. -/
def updateMessage (db : Db) (updateNow : Timestamp) (messageId newContent : String) :
    Except String Db :=
  match getMessage db messageId with
  | none => .error "Message not found"
  | some message => .ok { db with messages := db.messages.map (fun x =>
      if x.id == messageId && x.conversationId == message.conversationId then
        { x with content := newContent, isEdited := true, updatedAt := some updateNow }
      else x) }

/-- `deleteMessage`: scans for the message by `id` (throws
`'Mensaje no encontrado'` when absent), then deletes by the composite
key. -/
def deleteMessage (db : Db) (messageId : String) : Except String Db :=
  match getMessage db messageId with
  | none => .error "Mensaje no encontrado"
  | some message => .ok { db with messages := db.messages.filter (fun x =>
      !(x.id == messageId && x.conversationId == message.conversationId)) }

/-- `deleteAllMessages`: batched scan-and-delete of the whole `messages`
table, reporting how many items were removed. -/
def deleteAllMessages (db : Db) : Db × Nat :=
  ({ db with messages := [] }, db.messages.length)

/-- Modelled from the spec: `dynamoDBService.updateConversationCreatedBy`
is called by the leave/remove handlers but its definition is not among the
sources.  Spec §4.1: `transferOwnership(conversationId, newOwner)`
"rewrites `createdBy`". -/
def updateConversationCreatedBy (db : Db) (conversationId newOwner : String) : Db :=
  { db with conversations := db.conversations.map (fun c =>
      if c.id == conversationId then { c with createdBy := newOwner } else c) }

/-- Modelled from the spec: `dynamoDBService.deleteConversationMessages`
is called by the cascade-deletion paths but its definition is not among
the sources.  Spec §4.1/§7: deletes all of the conversation's messages,
reporting the count of successfully removed messages. -/
def deleteConversationMessages (db : Db) (conversationId : String) : Db × Nat :=
  (({ db with messages := db.messages.filter (fun m => m.conversationId != conversationId) }),
   (db.messages.filter (fun m => m.conversationId == conversationId)).length)

/-- `getUserConversations`, reduced to the conversation ids of the user's
membership rows (the source also joins in conversation metadata, which
`findPrivateConversation` re-reads anyway). -/
def getUserConversationIds (db : Db) (userId : String) : List String :=
  (db.participants.filter (fun r => r.userId == userId)).map (·.conversationId)

/-- `findPrivateConversation`: walks `userId1`'s conversations and returns
the first private one whose participant set is exactly the pair. -/
def findPrivateConversation (db : Db) (userId1 userId2 : String) : Option Conversation :=
  ((getUserConversationIds db userId1).filterMap (getConversation db)).find? (fun c =>
    c.convType == "private" &&
      (let ids := (getConversationParticipants db c.id).map (·.userId)
       ids.contains userId2 && ids.length == 2))

/-! ### Events and audiences -/

/-- Audience of an emitted event: the conversation room
(`server.to('conversation:...')`), a user's personal room
(`server.to('user:...')`), the whole server (`server.emit`), or the acting
session only (`client.emit`). -/
inductive Target where
  | room : String → Target
  | user : String → Target
  | broadcast : Target
  | caller : Target
  deriving Repr, DecidableEq

/-- Event payloads, kept only where a claim inspects them; everything else
is `info`. -/
inductive Payload where
  | message : Message → Payload
  | unread (convType conversationId senderId messageId content : String)
      (timestamp : Timestamp) : Payload
  | reply (m : Message) (replyPreview : String) : Payload
  | errorText : String → Payload
  | info : Payload
  deriving Repr, DecidableEq

/-- One emitted transport event. -/
structure Event where
  target : Target
  name : String
  payload : Payload
  deriving Repr, DecidableEq

/-! ### ChatGateway / AppController handlers -/

/-- The unread fan-out loop of `handleSendMessage` (and of the controller's
`uploadFile`, which repeats it verbatim with the file name as notification
content).  For every participant other than the sender it unconditionally
increments the membership row's `unreadCount` (writing back the pre-loop
row values plus one), and additionally sends the personal unread event
when the participant is in the online set.  Returns `none` when the source
would throw: the unread event dereferences `conversation.type`, so a
missing conversation crashes as soon as an online recipient is reached. -/
def sendUnreadLoop (conv? : Option Conversation) (online : List String)
    (conversationId senderId messageId content : String) (now : Timestamp)
    (db : Db) : List ParticipantRow → Option (Db × List Event)
  | [] => some (db, [])
  | p :: rest =>
    if p.userId == senderId then
      sendUnreadLoop conv? online conversationId senderId messageId content now db rest
    else
      let db' := updateParticipantReadStatus db conversationId p.userId
        (p.unreadCount + 1) p.lastReadAt
      if online.contains p.userId then
        match conv? with
        | none => none
        | some conversation =>
          let ev : Event :=
            ⟨.user p.userId,
             if conversation.convType == "private" then "unread_message_private"
             else "unread_message_group",
             .unread conversation.convType conversationId senderId messageId content now⟩
          (sendUnreadLoop conv? online conversationId senderId messageId content now db' rest).map
            (fun r => (r.1, ev :: r.2))
      else
        sendUnreadLoop conv? online conversationId senderId messageId content now db' rest

/-- `handleSendMessage`: persists the message, emits `message_received` to
the room with the handler-time timestamp, then runs the unread fan-out
loop over the participants read back from the store. -/
def handleSendMessage (db : Db) (online : List String) (now persistNow : Timestamp)
    (conversationId senderId content messageType messageId : String) :
    Option (Db × List Event) :=
  let messageData : Message :=
    { id := messageId, conversationId := conversationId, senderId := senderId,
      content := content, messageType := messageType, timestamp := now,
      isEdited := false, isDeleted := false, replyTo := none, isReply := false,
      updatedAt := none }
  let db1 := createMessage db persistNow messageData
  let conv? := getConversation db1 conversationId
  let participants := getConversationParticipants db1 conversationId
  let ev0 : Event := ⟨.room conversationId, "message_received", .message messageData⟩
  (sendUnreadLoop conv? online conversationId senderId messageId content now db1
    participants).map (fun r => (r.1, ev0 :: r.2))

/-- `uploadFile` (REST): persists the file message (content is the
JSON-encoded file data) and repeats the unread fan-out with the file name
as the notification content. -/
def ctrlUploadFile (db : Db) (online : List String) (now persistNow : Timestamp)
    (conversationId senderId fileJson fileName messageId : String) :
    Option (Db × List Event) :=
  let messageData : Message :=
    { id := messageId, conversationId := conversationId, senderId := senderId,
      content := fileJson, messageType := "file", timestamp := now,
      isEdited := false, isDeleted := false, replyTo := none, isReply := false,
      updatedAt := none }
  let db1 := createMessage db persistNow messageData
  let conv? := getConversation db1 conversationId
  let participants := getConversationParticipants db1 conversationId
  let ev0 : Event := ⟨.room conversationId, "message_received", .message messageData⟩
  (sendUnreadLoop conv? online conversationId senderId messageId fileName now db1
    participants).map (fun r => (r.1, ev0 :: r.2))

/-- `mark_messages_as_read`: resets the counter, stamps `lastReadAt`,
confirms to the user's own audience. -/
def handleMarkMessagesAsRead (db : Db) (now : Timestamp)
    (conversationId userId : String) : Db × List Event :=
  (updateParticipantReadStatus db conversationId userId 0 now,
   [⟨.user userId, "messages_marked_as_read", .info⟩])

/-- `create_group`: persists the conversation, adds one membership row per
listed participant (`unreadCount 0`, `isActive true`), broadcasts
`group_created`. -/
def handleCreateGroup (db : Db) (now : Timestamp) (newId : String)
    (name : Option String) (description : Option String)
    (participants : List String) (createdBy : String) : Db × List Event :=
  let conversationData : Conversation :=
    { id := newId, convType := "group", name := name, description := description,
      participants := participants, createdBy := createdBy,
      createdAt := now, updatedAt := now }
  let db1 := createConversation db now conversationData
  let db2 := participants.foldl (fun d userId =>
    addParticipant d now newId userId ⟨0, now, true⟩) db1
  (db2, [⟨.broadcast, "group_created", .info⟩])

/-- `add_user_to_group`: silently ignores a missing conversation, else
upserts the membership row (`isActive true`) and emits the
`user_added_to_group` / `group_participants_updated` fan-out. -/
def handleAddUserToGroup (db : Db) (now : Timestamp)
    (conversationId userId addedBy : String) : Db × List Event :=
  match getConversation db conversationId with
  | none => (db, [])
  | some _ =>
    let db1 := addParticipant db now conversationId userId ⟨0, now, true⟩
    let updated := getConversationParticipants db1 conversationId
    (db1,
     [⟨.room conversationId, "user_added_to_group", .info⟩] ++
     updated.map (fun p => ⟨.user p.userId, "user_added_to_group", .info⟩) ++
     [⟨.user userId, "user_added_to_group", .info⟩] ++
     updated.map (fun p => ⟨.user p.userId, "group_participants_updated", .info⟩) ++
     [⟨.room conversationId, "group_participants_updated", .info⟩])

/-- Outcome of `handleLeaveGroup` (which is otherwise communicated through
emitted events in the source). -/
inductive LeaveResult where
  | errConvNotFound | errNotGroup | errNotParticipant | errRemove | errStillThere
  | okDeleted (deletedMessagesCount : Nat) | ok
  deriving Repr, DecidableEq

/-- Final stage of `handleLeaveGroup`: the still-there check, and either
the empty-group cascade (remaining-row cleanup, message deletion,
conversation deletion, `group_deleted` broadcast) or the
`user_left_group` / `group_participants_updated` fan-out. -/
def leaveGroupFinish (db3 : Db) (conversationId userId : String) :
    Db × List Event × LeaveResult :=
  let participantsAfter := getConversationParticipants db3 conversationId
  if participantsAfter.any (fun p => p.userId == userId) then
    (db3, [⟨.caller, "leave_group_error",
           .errorText "Error: el participante no se eliminó correctamente"⟩],
     .errStillThere)
  else if participantsAfter.length == 0 then
    let db4 := (getConversationParticipants db3 conversationId).foldl
      (fun d p => removeParticipantSwallowed d conversationId p.userId) db3
    let dmc := deleteConversationMessages db4 conversationId
    let db6 := deleteConversation dmc.1 conversationId
    (db6, [⟨.caller, "leave_group_success", .info⟩,
           ⟨.broadcast, "group_deleted", .info⟩],
     .okDeleted dmc.2)
  else
    (db3,
     [⟨.user userId, "user_left_group", .info⟩,
      ⟨.user userId, "group_left", .info⟩] ++
     participantsAfter.map (fun p => ⟨.user p.userId, "user_left_group", .info⟩) ++
     participantsAfter.map (fun p => ⟨.user p.userId, "group_participants_updated", .info⟩) ++
     [⟨.room conversationId, "user_left_group", .info⟩,
      ⟨.room conversationId, "group_participants_updated", .info⟩,
      ⟨.caller, "leave_group_success", .info⟩],
     .ok)

/-- Stage of `handleLeaveGroup` after the participant row has been removed
(and a 500ms pause): the retry-then-verify re-removal, then
`leaveGroupFinish`. -/
def leaveGroupAfterRemoval (db2 : Db) (conversationId userId : String) :
    Db × List Event × LeaveResult :=
  let db3 := if (getParticipant db2 conversationId userId).isSome then
    removeParticipantSwallowed db2 conversationId userId else db2
  leaveGroupFinish db3 conversationId userId

/-- Removal step of `handleLeaveGroup`: calls `removeParticipant` in a
try/catch that tolerates the thrown 'no encontrado' error when the row is
verified gone, then proceeds to `leaveGroupAfterRemoval`. -/
def leaveGroupRemoveStage (db1 : Db) (conversationId userId : String) :
    Db × List Event × LeaveResult :=
  match removeParticipant db1 conversationId userId with
  | .ok db2 => leaveGroupAfterRemoval db2 conversationId userId
  | .error _ =>
    -- the thrown message always contains 'no encontrado'; the handler then
    -- re-reads the row and continues when it is indeed gone
    if (getParticipant db1 conversationId userId).isNone then
      leaveGroupAfterRemoval db1 conversationId userId
    else
      (db1, [⟨.caller, "leave_group_error", .errorText "Error al salir del grupo"⟩],
       .errRemove)

/-- `leave_group`: validates the conversation (exists, is a group, has the
caller as participant), transfers ownership to the first other participant
when the leaver is the creator and more members remain, then runs
`leaveGroupRemoveStage`. -/
def handleLeaveGroup (db : Db) (conversationId userId : String) :
    Db × List Event × LeaveResult :=
  match getConversation db conversationId with
  | none => (db, [⟨.caller, "leave_group_error", .errorText "Conversación no encontrada"⟩],
             .errConvNotFound)
  | some conversation =>
    if conversation.convType != "group" then
      (db, [⟨.caller, "leave_group_error", .errorText "Solo puedes salir de grupos"⟩],
       .errNotGroup)
    else
      let participantsBefore := getConversationParticipants db conversationId
      if !(participantsBefore.any (fun p => p.userId == userId)) then
        (db, [⟨.caller, "leave_group_error",
              .errorText "No eres participante de este grupo"⟩], .errNotParticipant)
      else
        let isOriginalCreator := conversation.createdBy == userId
        let newCreatorId : Option String :=
          if isOriginalCreator && decide (participantsBefore.length > 1) then
            (participantsBefore.find? (fun p => p.userId != userId)).map (·.userId)
          else none
        let db1 := match newCreatorId with
          | some newId => updateConversationCreatedBy db conversationId newId
          | none => db
        leaveGroupRemoveStage db1 conversationId userId

/-- Outcome of the REST `removeParticipant` endpoint. -/
inductive CtrlRemoveResult where
  | errConvNotFound | errNotGroup | errNotParticipant | errRemove | errStillThere
  | okDeleted (deletedMessagesCount : Nat) | ok
  deriving Repr, DecidableEq

/-- Removal-and-cascade step of the REST `removeParticipant` endpoint
(`participantsBefore` and `isSelfRemoval` only shape event payloads). -/
def ctrlRemoveStage (db1 : Db) (participantsBefore : List ParticipantRow)
    (isSelfRemoval : Bool) (conversationId userId : String) :
    Db × List Event × CtrlRemoveResult :=
  match removeParticipant db1 conversationId userId with
  | .error _ => (db1, [], .errRemove)
  | .ok db2 =>
    let updatedParticipants := getConversationParticipants db2 conversationId
    if updatedParticipants.any (fun p => p.userId == userId) then
      (db2, [], .errStillThere)
    else if updatedParticipants.length == 0 then
      let db4 := (getConversationParticipants db2 conversationId).foldl
        (fun d p => removeParticipantSwallowed d conversationId p.userId) db2
      let dmc := deleteConversationMessages db4 conversationId
      let db6 := deleteConversation dmc.1 conversationId
      (db6,
       (participantsBefore.filter (fun p => p.userId != userId)).map
         (fun p => ⟨.user p.userId, "group_deleted", .info⟩),
       .okDeleted dmc.2)
    else
      (db2,
       (if isSelfRemoval then [] else
         [⟨.user userId, "user_removed_from_group", .info⟩]) ++
       updatedParticipants.map (fun p => ⟨.user p.userId, "user_left_group", .info⟩) ++
       updatedParticipants.map
         (fun p => ⟨.user p.userId, "group_participants_updated", .info⟩) ++
       [⟨.room conversationId, "user_left_group", .info⟩,
        ⟨.room conversationId, "group_participants_updated", .info⟩],
       .ok)

/-- `DELETE api/conversations/:id/participants/:userId`: same validation,
ownership-transfer and cascade logic as `handleLeaveGroup`, driven over
REST; `removedBy` distinguishes admin removal from self-leave (it only
shapes event payloads, which are carried as `info` here). -/
def ctrlRemoveParticipant (db : Db) (conversationId userId : String)
    (removedBy? : Option String) : Db × List Event × CtrlRemoveResult :=
  match getConversation db conversationId with
  | none => (db, [], .errConvNotFound)
  | some conversation =>
    if conversation.convType != "group" then (db, [], .errNotGroup)
    else match getParticipant db conversationId userId with
    | none => (db, [], .errNotParticipant)
    | some _ =>
      let participantsBefore := getConversationParticipants db conversationId
      let removedBy := removedBy?.getD userId
      let isSelfRemoval := removedBy == userId
      let isOriginalCreator := conversation.createdBy == userId
      let newCreatorId : Option String :=
        if isOriginalCreator && decide (participantsBefore.length > 1) then
          (participantsBefore.find? (fun p => p.userId != userId)).map (·.userId)
        else none
      let db1 := match newCreatorId with
        | some newId => updateConversationCreatedBy db conversationId newId
        | none => db
      ctrlRemoveStage db1 participantsBefore isSelfRemoval conversationId userId

/-- Outcome of `handleEditMessage`. -/
inductive EditResult where
  | ok | errNotFound | errUnauthorized | errNotEditable | errWindowExpired
  deriving Repr, DecidableEq

/-- `edit_message`: not-found, sender-mismatch, non-text and edit-window
checks, in source order; every failure is caught and reported to the
acting session only (`edit_message_error`).  On success the content is
persisted with `isEdited` and the re-read message is emitted to the room
as `message_edited`.  `nowMs` is `Date.now()` at the window check;
`updateNow` is the clock read stamped into `updatedAt`. -/
def handleEditMessage (db : Db) (nowMs : Timestamp) (updateNow : Timestamp)
    (messageId newContent userId : String) : Db × List Event × EditResult :=
  match getMessage db messageId with
  | none => (db, [⟨.caller, "edit_message_error", .errorText "Message not found"⟩],
             .errNotFound)
  | some message =>
    if message.senderId != userId then
      (db, [⟨.caller, "edit_message_error",
            .errorText "Unauthorized to edit this message"⟩], .errUnauthorized)
    else if message.messageType != "text" then
      (db, [⟨.caller, "edit_message_error",
            .errorText "Only text messages can be edited"⟩], .errNotEditable)
    else
      let timeDiff : Int := (nowMs : Int) - (message.timestamp : Int)
      let fifteenMinutes : Int := 15 * 60 * 1000
      if timeDiff > fifteenMinutes then
        (db, [⟨.caller, "edit_message_error",
              .errorText "Message can only be edited within 15 minutes"⟩],
         .errWindowExpired)
      else
        match updateMessage db updateNow messageId newContent with
        | .error e => (db, [⟨.caller, "edit_message_error", .errorText e⟩], .errNotFound)
        | .ok db' =>
          (db',
           [⟨.room message.conversationId, "message_edited",
             match getMessage db' messageId with
             | some updatedMessage => .message updatedMessage
             | none => .info⟩],
           .ok)

/-- Outcome of `handleDeleteMessage`. -/
inductive DeleteResult where
  | ok | errNotFound | errUnauthorized
  deriving Repr, DecidableEq

/-- `delete_message`: not-found and sender checks, best-effort blob
deletion for file messages (external storage, elided), store deletion,
`message_deleted` to the room; failures go to the acting session only. -/
def handleDeleteMessage (db : Db) (messageId userId : String) :
    Db × List Event × DeleteResult :=
  match getMessage db messageId with
  | none => (db, [⟨.caller, "delete_message_error", .errorText "Message not found"⟩],
             .errNotFound)
  | some message =>
    if message.senderId != userId then
      (db, [⟨.caller, "delete_message_error",
            .errorText "Unauthorized to delete this message"⟩], .errUnauthorized)
    else
      match deleteMessage db messageId with
      | .error e => (db, [⟨.caller, "delete_message_error", .errorText e⟩], .errNotFound)
      | .ok db' =>
        (db', [⟨.room message.conversationId, "message_deleted", .info⟩], .ok)

/-- The reply-preview derivation of `handleSendReply`.  For file/audio
originals the source runs `JSON.parse` over the content and reads
`fileData.fileName`; that parse outcome is passed in as `parseOk` (did the
parse succeed) and `parsedFileName` (the `fileName` field, `none` when
absent or empty, i.e. falsy).  Previews longer than 100 characters are cut
to `substring(0, 97)` plus `'...'`. -/
def deriveReplyPreview (originalMessage : Message) (parseOk : Bool)
    (parsedFileName : Option String) : String :=
  let base :=
    if originalMessage.messageType == "file" || originalMessage.messageType == "audio" then
      let fileType := if originalMessage.messageType == "audio" then "Audio" else "Archivo"
      if parseOk then fileType ++ ": " ++ parsedFileName.getD "Sin nombre"
      else fileType
    else originalMessage.content
  if base.length > 100 then jsSubstring0 base 97 ++ "..." else base

/-- Outcome of `handleSendReply`. -/
inductive ReplyResult where
  | ok | errNotInConversation | errOriginalNotFound
  deriving Repr, DecidableEq

/-- `send_reply`: membership check, original-message check (must exist and
belong to the conversation), persist, derive the preview, emit
`reply_received` to the room and `reply_sent_success` to the sender
session. -/
def handleSendReply (db : Db) (now persistNow : Timestamp) (parseOk : Bool)
    (parsedFileName : Option String)
    (conversationId senderId content messageType replyTo messageId : String) :
    Db × List Event × ReplyResult :=
  let participants := getConversationParticipants db conversationId
  if !(participants.any (fun p => p.userId == senderId)) then
    (db, [⟨.caller, "reply_error", .errorText "Usuario no está en la conversación"⟩],
     .errNotInConversation)
  else
    match getMessage db replyTo with
    | none => (db, [⟨.caller, "reply_error", .errorText "Mensaje original no encontrado"⟩],
               .errOriginalNotFound)
    | some originalMessage =>
      if originalMessage.conversationId != conversationId then
        (db, [⟨.caller, "reply_error", .errorText "Mensaje original no encontrado"⟩],
         .errOriginalNotFound)
      else
        let replyMessageData : Message :=
          { id := messageId, conversationId := conversationId, senderId := senderId,
            content := content, messageType := messageType, timestamp := now,
            isEdited := false, isDeleted := false, replyTo := some replyTo,
            isReply := true, updatedAt := none }
        let db1 := createMessage db persistNow replyMessageData
        let replyPreview := deriveReplyPreview originalMessage parseOk parsedFileName
        (db1,
         [⟨.room conversationId, "reply_received", .reply replyMessageData replyPreview⟩,
          ⟨.caller, "reply_sent_success", .info⟩],
         .ok)

/-- `POST api/conversations`: returns the existing private conversation
for the pair when there is one, otherwise persists the conversation and
one active membership row per listed participant. -/
def ctrlCreateConversation (db : Db) (now : Timestamp) (newId : String)
    (convType : String) (name description : Option String)
    (participants : List String) (createdBy : String) : Db :=
  let short? : Option Conversation :=
    if convType == "private" then
      match participants with
      | [u1, u2] => findPrivateConversation db u1 u2
      | _ => none
    else none
  match short? with
  | some _ => db
  | none =>
    let conversationData : Conversation :=
      { id := newId, convType := convType, name := name, description := description,
        participants := participants, createdBy := createdBy,
        createdAt := now, updatedAt := now }
    let db1 := createConversation db now conversationData
    participants.foldl (fun d userId => addParticipant d now newId userId ⟨0, now, true⟩) db1

/-- `POST api/conversations/:id/participants`: 404-checks the
conversation, then upserts an active membership row. -/
def ctrlAddParticipant (db : Db) (now : Timestamp) (conversationId userId : String) : Db :=
  match getConversation db conversationId with
  | none => db
  | some _ => addParticipant db now conversationId userId ⟨0, now, true⟩

/-- `POST api/conversations/:id/mark-as-read`: same store effect as the
gateway's `mark_messages_as_read`. -/
def ctrlMarkConversationAsRead (db : Db) (now : Timestamp)
    (conversationId userId : String) : Db :=
  updateParticipantReadStatus db conversationId userId 0 now

/-- `GET api/messages/:conversationId`: reads the conversation's messages
and sorts them with the comparator
`(a, b) => new Date(a.timestamp).getTime() - new Date(b.timestamp).getTime()`,
i.e. ascending by `timestamp`. -/
def ctrlGetConversationMessages (db : Db) (conversationId : String) : List Message :=
  (getConversationMessages db conversationId).mergeSort
    (fun a b => a.timestamp ≤ b.timestamp)

/-! ### Reachability: the states the system's own operations produce -/

/-- States of the durable store reachable from fresh tables through the
repository's own write paths (gateway handlers and REST endpoints). -/
inductive Reachable : Db → Prop where
  | empty : Reachable Db.empty
  | createConversation {db} (now newId convType name description participants createdBy) :
      Reachable db →
      Reachable (ctrlCreateConversation db now newId convType name description
        participants createdBy)
  | addParticipantE {db} (now conversationId userId) :
      Reachable db → Reachable (ctrlAddParticipant db now conversationId userId)
  | createGroup {db} (now newId name description participants createdBy) :
      Reachable db →
      Reachable (handleCreateGroup db now newId name description participants createdBy).1
  | addUserToGroup {db} (now conversationId userId addedBy) :
      Reachable db → Reachable (handleAddUserToGroup db now conversationId userId addedBy).1
  | leaveGroup {db} (conversationId userId) :
      Reachable db → Reachable (handleLeaveGroup db conversationId userId).1
  | removeParticipantE {db} (conversationId userId removedBy?) :
      Reachable db → Reachable (ctrlRemoveParticipant db conversationId userId removedBy?).1
  | sendMessage {db db' evs} (online now persistNow conversationId senderId content
      messageType messageId) :
      Reachable db →
      handleSendMessage db online now persistNow conversationId senderId content
        messageType messageId = some (db', evs) →
      Reachable db'
  | uploadFile {db db' evs} (online now persistNow conversationId senderId fileJson
      fileName messageId) :
      Reachable db →
      ctrlUploadFile db online now persistNow conversationId senderId fileJson
        fileName messageId = some (db', evs) →
      Reachable db'
  | markRead {db} (now conversationId userId) :
      Reachable db → Reachable (handleMarkMessagesAsRead db now conversationId userId).1
  | markReadE {db} (now conversationId userId) :
      Reachable db → Reachable (ctrlMarkConversationAsRead db now conversationId userId)
  | editMessage {db} (nowMs updateNow messageId newContent userId) :
      Reachable db →
      Reachable (handleEditMessage db nowMs updateNow messageId newContent userId).1
  | deleteMessageG {db} (messageId userId) :
      Reachable db → Reachable (handleDeleteMessage db messageId userId).1
  | sendReply {db} (now persistNow parseOk parsedFileName conversationId senderId
      content messageType replyTo messageId) :
      Reachable db →
      Reachable (handleSendReply db now persistNow parseOk parsedFileName conversationId
        senderId content messageType replyTo messageId).1
  | deleteConversationE {db} (conversationId) :
      Reachable db → Reachable (deleteConversation db conversationId)
  | deleteMessageE {db db'} (messageId) :
      Reachable db → deleteMessage db messageId = .ok db' → Reachable db'
  | deleteAllMessagesE {db} :
      Reachable db → Reachable (deleteAllMessages db).1

/-! ### Derived forms and invariants used by the verification -/

/-- One iteration's store effect in the unread fan-out loop: skip the
sender, otherwise write back the pre-loop row values with the counter
incremented. -/
def sendStep (conversationId senderId : String) (db : Db) (p : ParticipantRow) : Db :=
  if p.userId == senderId then db
  else updateParticipantReadStatus db conversationId p.userId (p.unreadCount + 1) p.lastReadAt

/-- One iteration's emission in the unread fan-out loop: the personal
unread event exactly for online non-sender participants. -/
def unreadEventFor (conversation : Conversation) (online : List String)
    (conversationId senderId messageId content : String) (now : Timestamp)
    (p : ParticipantRow) : Option Event :=
  if p.userId == senderId then none
  else if online.contains p.userId then
    some ⟨.user p.userId,
      if conversation.convType == "private" then "unread_message_private"
      else "unread_message_group",
      .unread conversation.convType conversationId senderId messageId content now⟩
  else none

/-- No membership row is explicitly marked inactive.  No write path of the
repository ever stores `isActive = false`: `addParticipant` is always
called with `isActive: true` and `removeParticipant` deletes the row
outright. -/
def NoInactive (db : Db) : Prop :=
  ∀ r ∈ db.participants, r.isActive ≠ some false

/-- The composite key (`conversationId`, `userId`) identifies at most one
row of `conversation_participants` — the table-key invariant DynamoDB
itself maintains. -/
def UniqueKeys (db : Db) : Prop :=
  db.participants.Pairwise (fun a b => a.conversationId ≠ b.conversationId ∨ a.userId ≠ b.userId)

instance (db : Db) : Decidable (UniqueKeys db) := by
  unfold UniqueKeys; infer_instance

instance (db : Db) : Decidable (NoInactive db) := by
  unfold NoInactive; infer_instance

/-! ### Concrete stores for counterexamples and witnesses -/

/-- A store with one membership row, for exercising `removeParticipant`. -/
def exRemoveDb : Db :=
  ⟨[], [⟨"c", "U", 0, 0, some true, some 0⟩], []⟩

/-- A store with one membership row, for exercising repeated removal. -/
def exRemoveTwiceDb : Db :=
  ⟨[], [⟨"c", "U", 3, 0, some true, some 0⟩], []⟩

/-- A group with sender C, online member B and offline member A, for
exercising the send-message fan-out. -/
def exSendDb : Db :=
  ⟨[⟨"g", "group", some "grp", none, ["A", "B", "C"], "C", 0, 0⟩],
   [⟨"g", "A", 0, 0, some true, some 0⟩,
    ⟨"g", "B", 0, 0, some true, some 0⟩,
    ⟨"g", "C", 0, 0, some true, some 0⟩],
   []⟩

/-- A reachable store: a two-member group created from fresh tables. -/
def exReachedDb : Db :=
  (handleCreateGroup Db.empty 0 "g1" (some "grp") none ["A", "B"] "A").1

/-- A single-member group with one message, for exercising the
cascade-deletion path of `handleLeaveGroup`. -/
def exSoloGroupDb : Db :=
  ⟨[⟨"g", "group", some "grp", none, ["A"], "A", 0, 0⟩],
   [⟨"g", "A", 0, 0, some true, some 0⟩],
   [⟨"m1", "g", "A", "hola", "text", 3, false, false, none, false, none⟩]⟩

/-- A two-member group owned by its leaver, for exercising ownership
transfer. -/
def exOwnerLeaveDb : Db :=
  ⟨[⟨"g", "group", some "grp", none, ["A", "B"], "A", 0, 0⟩],
   [⟨"g", "A", 0, 0, some true, some 0⟩,
    ⟨"g", "B", 0, 0, some true, some 0⟩],
   []⟩

/-- A store with one editable text message (timestamp 1000), for
exercising the edit window. -/
def exEditDb : Db :=
  ⟨[], [],
   [⟨"m1", "g", "A", "hola", "text", 1000, false, false, none, false, none⟩]⟩

/-- A store with a 250-character text message to reply to. -/
def exReplyDb : Db :=
  ⟨[⟨"g", "group", some "grp", none, ["A", "B"], "A", 0, 0⟩],
   [⟨"g", "A", 0, 0, some true, some 0⟩,
    ⟨"g", "B", 0, 0, some true, some 0⟩],
   [⟨"m0", "g", "A", ⟨List.replicate 250 'x'⟩, "text", 3, false, false, none, false, none⟩]⟩

/-- A store for exercising the timestamp-overwrite of `createMessage`. -/
def exTimestampDb : Db :=
  ⟨[⟨"g", "group", some "grp", none, ["A", "B"], "A", 0, 0⟩],
   [⟨"g", "A", 0, 0, some true, some 0⟩,
    ⟨"g", "B", 0, 0, some true, some 0⟩],
   []⟩

/-! ## Store lemmas -/

theorem getParticipant_congr {db₁ db₂ : Db} (h : db₁.participants = db₂.participants)
    (cid uid : String) : getParticipant db₁ cid uid = getParticipant db₂ cid uid := by
  simp [getParticipant, h]

theorem getConversationParticipants_congr {db₁ db₂ : Db}
    (h : db₁.participants = db₂.participants) (cid : String) :
    getConversationParticipants db₁ cid = getConversationParticipants db₂ cid := by
  simp [getConversationParticipants, h]

theorem getConversation_congr {db₁ db₂ : Db} (h : db₁.conversations = db₂.conversations)
    (cid : String) : getConversation db₁ cid = getConversation db₂ cid := by
  simp [getConversation, h]

theorem getMessage_congr {db₁ db₂ : Db} (h : db₁.messages = db₂.messages)
    (mid : String) : getMessage db₁ mid = getMessage db₂ mid := by
  simp [getMessage, h]

theorem getConversationMessages_congr {db₁ db₂ : Db} (h : db₁.messages = db₂.messages)
    (cid : String) : getConversationMessages db₁ cid = getConversationMessages db₂ cid := by
  simp [getConversationMessages, h]

theorem participants_createMessage (db : Db) (n : Timestamp) (m : Message) :
    (createMessage db n m).participants = db.participants := by
  unfold createMessage; split <;> rfl

theorem conversations_createMessage (db : Db) (n : Timestamp) (m : Message) :
    (createMessage db n m).conversations = db.conversations := by
  unfold createMessage; split <;> rfl

theorem participants_createConversation (db : Db) (n : Timestamp) (c : Conversation) :
    (createConversation db n c).participants = db.participants := by
  unfold createConversation; split <;> rfl

theorem messages_createConversation (db : Db) (n : Timestamp) (c : Conversation) :
    (createConversation db n c).messages = db.messages := by
  unfold createConversation; split <;> rfl

theorem messages_updateParticipantReadStatus (db : Db) (cid uid : String) (n : Nat)
    (t : Timestamp) : (updateParticipantReadStatus db cid uid n t).messages = db.messages := by
  unfold updateParticipantReadStatus
  cases getParticipant db cid uid <;> rfl

theorem conversations_updateParticipantReadStatus (db : Db) (cid uid : String) (n : Nat)
    (t : Timestamp) :
    (updateParticipantReadStatus db cid uid n t).conversations = db.conversations := by
  unfold updateParticipantReadStatus
  cases getParticipant db cid uid <;> rfl

theorem messages_addParticipant (db : Db) (now : Timestamp) (cid uid : String)
    (pd : ParticipantData) : (addParticipant db now cid uid pd).messages = db.messages := by
  unfold addParticipant
  cases getParticipant db cid uid <;> rfl

theorem conversations_addParticipant (db : Db) (now : Timestamp) (cid uid : String)
    (pd : ParticipantData) :
    (addParticipant db now cid uid pd).conversations = db.conversations := by
  unfold addParticipant
  cases getParticipant db cid uid <;> rfl

theorem participants_updateConversationCreatedBy (db : Db) (cid newOwner : String) :
    (updateConversationCreatedBy db cid newOwner).participants = db.participants := rfl

theorem messages_updateConversationCreatedBy (db : Db) (cid newOwner : String) :
    (updateConversationCreatedBy db cid newOwner).messages = db.messages := rfl

theorem participants_deleteConversation (db : Db) (cid : String) :
    (deleteConversation db cid).participants = db.participants := rfl

theorem messages_deleteConversation (db : Db) (cid : String) :
    (deleteConversation db cid).messages = db.messages := rfl

theorem participants_deleteConversationMessages (db : Db) (cid : String) :
    (deleteConversationMessages db cid).1.participants = db.participants := rfl

theorem conversations_deleteConversationMessages (db : Db) (cid : String) :
    (deleteConversationMessages db cid).1.conversations = db.conversations := rfl

theorem removeParticipant_eq_ok {db db' : Db} {cid uid : String}
    (h : removeParticipant db cid uid = .ok db') :
    db' = { db with participants := db.participants.filter (fun r =>
      !(r.conversationId == cid && r.userId == uid)) } := by
  unfold removeParticipant at h
  cases hg : getParticipant db cid uid <;> rw [hg] at h <;> cases h
  rfl

theorem removeParticipant_eq_error {db : Db} {cid uid : String}
    (h : getParticipant db cid uid = none) :
    removeParticipant db cid uid = .error "Participante no encontrado en la conversación" := by
  unfold removeParticipant
  rw [h]

theorem removeParticipant_of_isSome {db : Db} {cid uid : String}
    (h : (getParticipant db cid uid).isSome) :
    removeParticipant db cid uid = .ok { db with participants := (db.participants.filter
      (fun r => !(r.conversationId == cid && r.userId == uid))) } := by
  unfold removeParticipant
  cases hg : getParticipant db cid uid
  · rw [hg] at h; cases h
  · rfl

theorem messages_removeParticipantSwallowed (db : Db) (cid uid : String) :
    (removeParticipantSwallowed db cid uid).messages = db.messages := by
  unfold removeParticipantSwallowed removeParticipant
  cases getParticipant db cid uid <;> rfl

theorem conversations_removeParticipantSwallowed (db : Db) (cid uid : String) :
    (removeParticipantSwallowed db cid uid).conversations = db.conversations := by
  unfold removeParticipantSwallowed removeParticipant
  cases getParticipant db cid uid <;> rfl

theorem participants_removeParticipantSwallowed_sub (db : Db) (cid uid : String) :
    ∀ r ∈ (removeParticipantSwallowed db cid uid).participants, r ∈ db.participants := by
  unfold removeParticipantSwallowed removeParticipant
  cases getParticipant db cid uid
  · exact fun r hr => hr
  · exact fun r hr => List.mem_of_mem_filter hr

theorem messages_deleteMessage_ok {db db' : Db} {mid : String}
    (h : deleteMessage db mid = .ok db') : db'.participants = db.participants ∧
      db'.conversations = db.conversations := by
  unfold deleteMessage at h
  cases hg : getMessage db mid <;> rw [hg] at h <;> cases h
  exact ⟨rfl, rfl⟩

theorem updateMessage_ok_eq {db db' : Db} {t : Timestamp} {mid c : String}
    (h : updateMessage db t mid c = .ok db') :
    ∃ m, getMessage db mid = some m ∧
      db' = { db with messages := db.messages.map (fun x =>
        if x.id == mid && x.conversationId == m.conversationId then
          { x with content := c, isEdited := true, updatedAt := some t }
        else x) } := by
  unfold updateMessage at h
  cases hg : getMessage db mid <;> rw [hg] at h <;> cases h
  exact ⟨_, rfl, rfl⟩

/-! ## find? machinery -/

theorem find?_map_if {α : Type} (p : α → Bool) (g : α → α)
    (hg : ∀ a, p a = true → p (g a) = true) :
    ∀ l : List α, (l.map (fun a => if p a then g a else a)).find? p = (l.find? p).map g := by
  intro l
  induction l with
  | nil => rfl
  | cons a t ih =>
    by_cases ha : p a = true
    · rw [List.map_cons, if_pos ha, List.find?_cons_of_pos _ (hg a ha),
        List.find?_cons_of_pos _ ha]
      rfl
    · rw [List.map_cons, if_neg ha, List.find?_cons_of_neg _ ha,
        List.find?_cons_of_neg _ ha, ih]

theorem find?_map_fix {α : Type} (q : α → Bool) (f : α → α)
    (hq : ∀ a, q (f a) = q a) (hfix : ∀ a, q a = true → f a = a) :
    ∀ l : List α, (l.map f).find? q = l.find? q := by
  intro l
  induction l with
  | nil => rfl
  | cons a t ih =>
    by_cases ha : q a = true
    · rw [List.map_cons, hfix a ha, List.find?_cons_of_pos _ ha, List.find?_cons_of_pos _ ha]
    · have : ¬q (f a) = true := by rw [hq]; exact ha
      rw [List.map_cons, List.find?_cons_of_neg _ this, List.find?_cons_of_neg _ ha, ih]

theorem find?_filter_out {α : Type} (p : α → Bool) (l : List α) :
    (l.filter (fun a => !p a)).find? p = none := by
  rw [List.find?_eq_none]
  intro x hx
  have := (List.mem_filter.1 hx).2
  simp only [Bool.not_eq_true'] at this
  simp [this]

/-! ## Participant-row lookup under mutation -/

theorem getParticipant_update_self {db : Db} {cid uid : String} {p : ParticipantRow}
    (h : getParticipant db cid uid = some p) (n : Nat) (t : Timestamp) :
    getParticipant (updateParticipantReadStatus db cid uid n t) cid uid
      = some { p with unreadCount := n, lastReadAt := t } := by
  unfold updateParticipantReadStatus
  rw [h]
  show (db.participants.map _).find? _ = _
  rw [find?_map_if (fun r : ParticipantRow => r.conversationId == cid && r.userId == uid)
    (fun r : ParticipantRow => { r with unreadCount := n, lastReadAt := t })
    (fun a ha => ha) db.participants]
  rw [show db.participants.find? (fun r => r.conversationId == cid && r.userId == uid)
    = some p from h]
  rfl

theorem getParticipant_update_ne {db : Db} {cid uid cid' uid' : String} (n : Nat)
    (t : Timestamp) (hne : ¬(cid' = cid ∧ uid' = uid)) :
    getParticipant (updateParticipantReadStatus db cid uid n t) cid' uid'
      = getParticipant db cid' uid' := by
  unfold updateParticipantReadStatus
  cases hg : getParticipant db cid uid with
  | some p =>
    show (db.participants.map _).find? _ = _
    rw [find?_map_fix (fun r : ParticipantRow => r.conversationId == cid' && r.userId == uid')
      (fun r : ParticipantRow =>
        if (r.conversationId == cid && r.userId == uid) = true then
          { r with unreadCount := n, lastReadAt := t }
        else r)
      (fun a => by
        by_cases ha : (a.conversationId == cid && a.userId == uid) = true <;> simp [ha])
      (fun a ha => by
        have h1 : a.conversationId = cid' ∧ a.userId = uid' := by
          simp only [Bool.and_eq_true, beq_iff_eq] at ha; exact ha
        have h2 : (a.conversationId == cid && a.userId == uid) = false := by
          by_contra hcon
          simp only [Bool.not_eq_false, Bool.and_eq_true, beq_iff_eq] at hcon
          exact hne ⟨h1.1 ▸ hcon.1, h1.2 ▸ hcon.2⟩
        simp [h2])
      db.participants]
    rfl
  | none =>
    show (db.participants ++ [(⟨cid, uid, n, t, none, none⟩ : ParticipantRow)]).find? _ = _
    rw [List.find?_append]
    have hsingle : ([(⟨cid, uid, n, t, none, none⟩ : ParticipantRow)].find?
        (fun r => r.conversationId == cid' && r.userId == uid')) = none := by
      rw [List.find?_eq_none]
      intro x hx
      rcases List.mem_singleton.1 hx with rfl
      simp only [Bool.and_eq_true, beq_iff_eq, not_and]
      intro h1 h2
      exact hne ⟨h1.symm, h2.symm⟩
    rw [hsingle, Option.or_none]
    rfl

theorem getParticipant_removeOk_self {db db' : Db} {cid uid : String}
    (h : removeParticipant db cid uid = .ok db') :
    getParticipant db' cid uid = none := by
  rw [removeParticipant_eq_ok h]
  exact find?_filter_out _ _

theorem getConversationParticipants_removeOk {db db' : Db} {cid uid : String}
    (h : removeParticipant db cid uid = .ok db') :
    getConversationParticipants db' cid
      = (getConversationParticipants db cid).filter (fun p => !(p.userId == uid)) := by
  rw [removeParticipant_eq_ok h]
  unfold getConversationParticipants
  show (db.participants.filter _).filter _ = (db.participants.filter _).filter _
  rw [List.filter_filter, List.filter_filter]
  apply List.filter_congr
  intro r _
  by_cases hc : (r.conversationId == cid) = true <;> simp [hc]

/-! ## Key uniqueness -/

theorem find?_key_of_mem {l : List ParticipantRow}
    (hu : l.Pairwise (fun a b => a.conversationId ≠ b.conversationId ∨ a.userId ≠ b.userId))
    {r : ParticipantRow} (hr : r ∈ l) :
    l.find? (fun x => x.conversationId == r.conversationId && x.userId == r.userId)
      = some r := by
  induction l with
  | nil => cases hr
  | cons a t ih =>
    rcases List.mem_cons.1 hr with rfl | hrt
    · apply List.find?_cons_of_pos
      simp
    · have hpair := (List.pairwise_cons.1 hu).1 r hrt
      have hkey : ¬(a.conversationId == r.conversationId && a.userId == r.userId) = true := by
        rcases hpair with hd | hd <;> simp [hd]
      have hstep : (a :: t).find?
          (fun x => x.conversationId == r.conversationId && x.userId == r.userId)
          = t.find? (fun x => x.conversationId == r.conversationId && x.userId == r.userId) :=
        List.find?_cons_of_neg _ hkey
      rw [hstep]
      exact ih (List.pairwise_cons.1 hu).2 hrt

theorem getParticipant_of_mem {db : Db} (hu : UniqueKeys db) {r : ParticipantRow}
    (hr : r ∈ db.participants) :
    getParticipant db r.conversationId r.userId = some r :=
  find?_key_of_mem hu hr

theorem pairwise_userId_ne {db : Db} (hu : UniqueKeys db) (cid : String) :
    (getConversationParticipants db cid).Pairwise (fun a b => a.userId ≠ b.userId) := by
  unfold getConversationParticipants
  have h2 := List.Pairwise.filter (fun r : ParticipantRow => r.conversationId == cid) hu
  refine List.Pairwise.imp_of_mem ?_ h2
  intro a b ha hb hab
  have ha' : a.conversationId = cid := by
    have := (List.mem_filter.1 ha).2; simpa using this
  have hb' : b.conversationId = cid := by
    have := (List.mem_filter.1 hb).2; simpa using this
  rcases hab with hd | hd
  · exact absurd (ha'.trans hb'.symm) hd
  · exact hd

theorem mem_participants_of_mem_getConversationParticipants {db : Db} {cid : String}
    {p : ParticipantRow} (hp : p ∈ getConversationParticipants db cid) :
    p ∈ db.participants ∧ p.conversationId = cid := by
  refine ⟨List.mem_of_mem_filter hp, ?_⟩
  have := (List.mem_filter.1 hp).2
  simpa using this

/-! ## The no-row-marked-inactive invariant, per primitive -/

theorem noInactive_congr {db₁ db₂ : Db} (h : db₂.participants = db₁.participants)
    (hn : NoInactive db₁) : NoInactive db₂ := fun r hr => hn r (h ▸ hr)

theorem noInactive_of_sub {db₁ db₂ : Db}
    (hsub : ∀ r ∈ db₂.participants, r ∈ db₁.participants)
    (hn : NoInactive db₁) : NoInactive db₂ := fun r hr => hn r (hsub r hr)

theorem noInactive_update {db : Db} (hn : NoInactive db) (cid uid : String) (n : Nat)
    (t : Timestamp) : NoInactive (updateParticipantReadStatus db cid uid n t) := by
  unfold updateParticipantReadStatus
  cases getParticipant db cid uid with
  | some p =>
    intro r hr
    rcases List.mem_map.1 hr with ⟨x, hx, rfl⟩
    split
    · exact hn x hx
    · exact hn x hx
  | none =>
    intro r hr
    rcases List.mem_append.1 hr with hx | hx
    · exact hn r hx
    · rcases List.mem_singleton.1 hx with rfl
      simp

theorem noInactive_addParticipant {db : Db} (hn : NoInactive db) (now : Timestamp)
    (cid uid : String) {pd : ParticipantData} (hpd : pd.isActive = true) :
    NoInactive (addParticipant db now cid uid pd) := by
  unfold addParticipant
  cases getParticipant db cid uid with
  | some p =>
    intro r hr
    rcases List.mem_map.1 hr with ⟨x, hx, rfl⟩
    split
    · simp [hpd]
    · exact hn x hx
  | none =>
    intro r hr
    rcases List.mem_append.1 hr with hx | hx
    · exact hn r hx
    · rcases List.mem_singleton.1 hx with rfl
      simp [hpd]

theorem noInactive_removeSwallowed {db : Db} (hn : NoInactive db) (cid uid : String) :
    NoInactive (removeParticipantSwallowed db cid uid) :=
  noInactive_of_sub (participants_removeParticipantSwallowed_sub db cid uid) hn

theorem noInactive_removeOk {db db' : Db} {cid uid : String}
    (h : removeParticipant db cid uid = .ok db') (hn : NoInactive db) : NoInactive db' := by
  rw [removeParticipant_eq_ok h]
  exact noInactive_of_sub (fun r hr => List.mem_of_mem_filter hr) hn

theorem noInactive_foldSwallow {cid : String} :
    ∀ (parts : List ParticipantRow) {db : Db}, NoInactive db →
    NoInactive (parts.foldl (fun d p => removeParticipantSwallowed d cid p.userId) db) := by
  intro parts
  induction parts with
  | nil => intro db hn; exact hn
  | cons p rest ih =>
    intro db hn
    exact ih (noInactive_removeSwallowed hn cid p.userId)

theorem noInactive_foldAdd {now : Timestamp} {cid : String} :
    ∀ (users : List String) {db : Db}, NoInactive db →
    NoInactive (users.foldl (fun d userId => addParticipant d now cid userId ⟨0, now, true⟩) db) := by
  intro users
  induction users with
  | nil => intro db hn; exact hn
  | cons u rest ih =>
    intro db hn
    exact ih (noInactive_addParticipant hn now cid u rfl)

/-! ## The unread fan-out loop -/

theorem sendUnreadLoop_eq_some (conversation : Conversation) (online : List String)
    (cid sid mid content : String) (now : Timestamp) :
    ∀ (parts : List ParticipantRow) (db : Db),
    sendUnreadLoop (some conversation) online cid sid mid content now db parts
      = some (parts.foldl (sendStep cid sid) db,
              parts.filterMap (unreadEventFor conversation online cid sid mid content now)) := by
  intro parts
  induction parts with
  | nil => intro db; rfl
  | cons p rest ih =>
    intro db
    by_cases hs : (p.userId == sid) = true
    · simp [sendUnreadLoop, sendStep, unreadEventFor, hs, ih, List.filterMap_cons]
    · by_cases ho : p.userId ∈ online
      · simp [sendUnreadLoop, sendStep, unreadEventFor, hs, ho, ih, List.filterMap_cons]
      · simp [sendUnreadLoop, sendStep, unreadEventFor, hs, ho, ih, List.filterMap_cons]

theorem sendUnreadLoop_ok {conv? : Option Conversation} {online : List String}
    {cid sid mid content : String} {now : Timestamp} :
    ∀ {parts : List ParticipantRow} {db db' : Db} {evs : List Event},
    sendUnreadLoop conv? online cid sid mid content now db parts = some (db', evs) →
    db'.messages = db.messages ∧ db'.conversations = db.conversations ∧
      (NoInactive db → NoInactive db') := by
  intro parts
  induction parts with
  | nil =>
    intro db db' evs h
    unfold sendUnreadLoop at h
    cases h
    exact ⟨rfl, rfl, id⟩
  | cons p rest ih =>
    intro db db' evs h
    unfold sendUnreadLoop at h
    by_cases hs : (p.userId == sid) = true
    · rw [if_pos hs] at h
      exact ih h
    · rw [if_neg hs] at h
      by_cases ho : online.contains p.userId = true
      · rw [if_pos ho] at h
        cases conv? with
        | none => cases h
        | some conversation =>
          simp only [Option.map_eq_some'] at h
          rcases h with ⟨⟨dbr, evr⟩, hr, heq⟩
          cases heq
          have := ih hr
          refine ⟨?_, ?_, ?_⟩
          · rw [this.1, messages_updateParticipantReadStatus]
          · rw [this.2.1, conversations_updateParticipantReadStatus]
          · intro hn
            exact this.2.2 (noInactive_update hn cid p.userId (p.unreadCount + 1) p.lastReadAt)
      · rw [if_neg ho] at h
        have := ih h
        refine ⟨?_, ?_, ?_⟩
        · rw [this.1, messages_updateParticipantReadStatus]
        · rw [this.2.1, conversations_updateParticipantReadStatus]
        · intro hn
          exact this.2.2 (noInactive_update hn cid p.userId (p.unreadCount + 1) p.lastReadAt)

theorem sendFold_preserve {cid sid u : String} :
    ∀ (parts : List ParticipantRow) (db : Db),
    (∀ r ∈ parts, r.userId ≠ sid → r.userId ≠ u) →
    getParticipant (parts.foldl (sendStep cid sid) db) cid u = getParticipant db cid u := by
  intro parts
  induction parts with
  | nil => intro db _; rfl
  | cons p rest ih =>
    intro db hall
    show getParticipant (rest.foldl (sendStep cid sid) (sendStep cid sid db p)) cid u = _
    by_cases hs : (p.userId == sid) = true
    · rw [show sendStep cid sid db p = db from by unfold sendStep; rw [if_pos hs]]
      exact ih db (fun r hr => hall r (List.mem_cons_of_mem p hr))
    · rw [ih _ (fun r hr => hall r (List.mem_cons_of_mem p hr))]
      unfold sendStep
      rw [if_neg hs]
      apply getParticipant_update_ne
      rintro ⟨-, rfl⟩
      have hps : p.userId ≠ sid := by simpa using hs
      exact hall p (List.mem_cons_self p rest) hps rfl

theorem sendFold_getParticipant {cid sid : String} :
    ∀ (parts : List ParticipantRow) (db : Db),
    parts.Pairwise (fun a b => a.userId ≠ b.userId) →
    (∀ q ∈ parts, getParticipant db cid q.userId = some q) →
    ∀ p ∈ parts, p.userId ≠ sid →
    getParticipant (parts.foldl (sendStep cid sid) db) cid p.userId
      = some { p with unreadCount := p.unreadCount + 1 } := by
  intro parts
  induction parts with
  | nil => intro db _ _ p hp; cases hp
  | cons q rest ih =>
    intro db hpw hrows p hp hps
    have hq := List.pairwise_cons.1 hpw
    rcases List.mem_cons.1 hp with rfl | hpr
    · show getParticipant (rest.foldl (sendStep cid sid) (sendStep cid sid db p)) cid p.userId = _
      rw [sendFold_preserve rest (sendStep cid sid db p)
        (fun r hr _ => (hq.1 r hr).symm)]
      unfold sendStep
      rw [if_neg (by simpa using hps)]
      have := getParticipant_update_self (hrows p (List.mem_cons_self p rest))
        (p.unreadCount + 1) p.lastReadAt
      rw [this]
    · show getParticipant (rest.foldl (sendStep cid sid) (sendStep cid sid db q)) cid p.userId = _
      refine ih (sendStep cid sid db q) hq.2 ?_ p hpr hps
      intro r hr
      unfold sendStep
      by_cases hsq : (q.userId == sid) = true
      · rw [if_pos hsq]; exact hrows r (List.mem_cons_of_mem q hr)
      · rw [if_neg hsq]
        rw [getParticipant_update_ne]
        · exact hrows r (List.mem_cons_of_mem q hr)
        · rintro ⟨-, h⟩
          exact (hq.1 r hr) h.symm

theorem getConversationParticipants_createMessage (db : Db) (n : Timestamp) (m : Message)
    (cid : String) : getConversationParticipants (createMessage db n m) cid
      = getConversationParticipants db cid :=
  getConversationParticipants_congr (participants_createMessage db n m) cid

theorem getConversation_createMessage (db : Db) (n : Timestamp) (m : Message)
    (cid : String) : getConversation (createMessage db n m) cid = getConversation db cid :=
  getConversation_congr (conversations_createMessage db n m) cid

/-- C2 (corrected): in `handleSendMessage`, EVERY active participant other
than the sender gets their membership row's `unreadCount` incremented by
one — reachable (online) or not; additionally, each online non-sender
participant receives the personal `unread_message_private` /
`unread_message_group` event, while offline participants receive no
user-targeted push at all; the sender's row is untouched.  The original
claim's assertion that reachable participants' counters are left unchanged
is refuted by `sendMessage_online_counter_bumped_cex`. -/
theorem sendMessage_unread_accounting
    (db : Db) (online : List String) (now persistNow : Timestamp)
    (conversationId senderId content messageType messageId : String)
    (conversation : Conversation)
    (hconv : getConversation db conversationId = some conversation)
    (hu : UniqueKeys db) :
    ∃ db' evs,
      handleSendMessage db online now persistNow conversationId senderId content
        messageType messageId = some (db', evs) ∧
      (∀ p ∈ getConversationParticipants db conversationId, p.userId ≠ senderId →
        (getParticipant db' conversationId p.userId
          = some { p with unreadCount := p.unreadCount + 1 }) ∧
        (p.userId ∈ online →
          (⟨.user p.userId,
            (if conversation.convType == "private" then "unread_message_private"
             else "unread_message_group"),
            .unread conversation.convType conversationId senderId messageId content now⟩ :
            Event) ∈ evs) ∧
        (p.userId ∉ online → ∀ e ∈ evs, e.target ≠ .user p.userId)) ∧
      getParticipant db' conversationId senderId
        = getParticipant db conversationId senderId := by
  unfold handleSendMessage
  dsimp only
  rw [getConversation_createMessage, hconv, getConversationParticipants_createMessage,
    sendUnreadLoop_eq_some]
  refine ⟨_, _, rfl, ?_, ?_⟩
  · intro p hp hps
    have hpmem := mem_participants_of_mem_getConversationParticipants hp
    have hrows : ∀ (m : Message), ∀ q ∈ getConversationParticipants db conversationId,
        getParticipant (createMessage db persistNow m) conversationId q.userId = some q := by
      intro m q hq
      have hqmem := mem_participants_of_mem_getConversationParticipants hq
      rw [getParticipant_congr (participants_createMessage db persistNow _)]
      have := getParticipant_of_mem hu hqmem.1
      rwa [hqmem.2] at this
    have hpw := pairwise_userId_ne hu conversationId
    refine ⟨?_, ?_, ?_⟩
    · exact sendFold_getParticipant (getConversationParticipants db conversationId)
        _ hpw (hrows _) p hp hps
    · intro ho
      refine List.mem_cons_of_mem _ (List.mem_filterMap.2 ⟨p, hp, ?_⟩)
      unfold unreadEventFor
      rw [if_neg (by simpa using hps), if_pos (by simpa using ho)]
    · intro ho e he het
      rcases List.mem_cons.1 he with rfl | hef
      · cases het
      · rcases List.mem_filterMap.1 hef with ⟨q, hq, heq⟩
        unfold unreadEventFor at heq
        by_cases hqs : (q.userId == senderId) = true
        · rw [if_pos hqs] at heq; cases heq
        · rw [if_neg hqs] at heq
          by_cases hqo : online.contains q.userId = true
          · rw [if_pos hqo] at heq
            cases heq
            have hqp : q.userId = p.userId := by
              have := het
              simpa [Target.user.injEq] using this
            by_cases hqeq : q = p
            · subst hqeq
              exact ho (by simpa using hqo)
            · have hsym : Symmetric (fun a b : ParticipantRow => a.userId ≠ b.userId) :=
                fun a b hab => hab.symm
              exact (hpw.forall hsym hq hp hqeq) hqp
          · rw [if_neg hqo] at heq; cases heq
  · rw [sendFold_preserve _ _ (fun r _ hrs => hrs),
      getParticipant_congr (participants_createMessage db persistNow _)]

/-- C2 counterexample: in `exSendDb` user B is online (reachable) and not
the sender, yet after `handleSendMessage` B's `unreadCount` is 1 where it
was 0 before — the claim's "their unreadCount is left unchanged" is false
on the code. -/
theorem sendMessage_online_counter_bumped_cex :
    ((handleSendMessage exSendDb ["B"] 5 6 "g" "C" "hi" "text" "m1").bind
      (fun r => (getParticipant r.1 "g" "B").map (·.unreadCount))) = some 1
    ∧ (getParticipant exSendDb "g" "B").map (·.unreadCount) = some 0
    ∧ "B" ∈ (["B"] : List String) := by
  refine ⟨by decide, by decide, by decide⟩

/-- C2 witness: the amended fan-out theorem applied to the concrete store
`exSendDb` with sender C, online B and offline A. -/
theorem sendMessage_unread_accounting_witness :
    ∃ db' evs,
      handleSendMessage exSendDb ["B"] 5 6 "g" "C" "hi" "text" "m1" = some (db', evs) ∧
      (∀ p ∈ getConversationParticipants exSendDb "g", p.userId ≠ "C" →
        (getParticipant db' "g" p.userId
          = some { p with unreadCount := p.unreadCount + 1 }) ∧
        (p.userId ∈ ["B"] →
          (⟨.user p.userId,
            (if ("group" : String) == "private" then "unread_message_private"
             else "unread_message_group"),
            .unread "group" "g" "C" "m1" "hi" 5⟩ : Event) ∈ evs) ∧
        (p.userId ∉ ["B"] → ∀ e ∈ evs, e.target ≠ .user p.userId)) ∧
      getParticipant db' "g" "C" = getParticipant exSendDb "g" "C" :=
  sendMessage_unread_accounting exSendDb ["B"] 5 6 "g" "C" "hi" "text" "m1"
    ⟨"g", "group", some "grp", none, ["A", "B", "C"], "C", 0, 0⟩
    (by decide) (by decide)

/-- C1 (corrected): `removeParticipant(C, U)` fails with the
ParticipantNotFound error (`'Participante no encontrado en la
conversación'`) exactly when no membership row exists for the pair, and a
successful call removes the row outright — a hard delete, leaving the
other tables untouched.  The original claim's soft-delete half (row kept
with `active=false`) is refuted by `removeParticipant_not_soft_delete_cex`. -/
theorem removeParticipant_spec (db : Db) (cid uid : String) :
    (getParticipant db cid uid = none →
      removeParticipant db cid uid = .error "Participante no encontrado en la conversación")
    ∧ (∀ p, getParticipant db cid uid = some p →
        ∃ db', removeParticipant db cid uid = .ok db' ∧
          getParticipant db' cid uid = none ∧
          db'.conversations = db.conversations ∧ db'.messages = db.messages) := by
  constructor
  · exact removeParticipant_eq_error
  · intro p hp
    refine ⟨_, removeParticipant_of_isSome (by simp [hp]), ?_, rfl, rfl⟩
    exact find?_filter_out _ _

/-- C1 counterexample: on a store holding the membership row
(`"c"`, `"U"`), `removeParticipant` succeeds but afterwards no row exists
for the pair at all — it was not left in place with `active = false`. -/
theorem removeParticipant_not_soft_delete_cex :
    (removeParticipant exRemoveDb "c" "U").isOk = true
    ∧ ((removeParticipant exRemoveDb "c" "U").toOption.bind
        (fun d => getParticipant d "c" "U")) = none := by
  exact ⟨by decide, by decide⟩

/-- C1 witness: the success half of `removeParticipant_spec` at the
concrete store `exRemoveDb`. -/
theorem removeParticipant_spec_witness :
    ∃ db', removeParticipant exRemoveDb "c" "U" = .ok db' ∧
      getParticipant db' "c" "U" = none ∧
      db'.conversations = exRemoveDb.conversations ∧
      db'.messages = exRemoveDb.messages :=
  (removeParticipant_spec exRemoveDb "c" "U").2
    ⟨"c", "U", 0, 0, some true, some 0⟩ (by decide)

/-- C4 (corrected): because removal hard-deletes the row, a second
`removeParticipant(C, U)` after a successful one DOES produce an error —
the ParticipantNotFound error — rather than succeeding silently; the
failing call performs no write (it aborts before the delete).  The
original claim's "does not produce an error" is refuted by
`removeParticipant_repeat_cex`. -/
theorem removeParticipant_repeat_errors (db db' : Db) (cid uid : String)
    (h : removeParticipant db cid uid = .ok db') :
    removeParticipant db' cid uid
      = .error "Participante no encontrado en la conversación" :=
  removeParticipant_eq_error (getParticipant_removeOk_self h)

/-- C4 counterexample: removing (`"c"`, `"U"`) twice from
`exRemoveTwiceDb`: the second call returns the ParticipantNotFound error,
contradicting the claim that it does not error. -/
theorem removeParticipant_repeat_cex :
    ((removeParticipant exRemoveTwiceDb "c" "U").toOption.map
      (fun d => removeParticipant d "c" "U"))
    = some (.error "Participante no encontrado en la conversación") := by
  rfl

/-- C4 witness: `removeParticipant_repeat_errors` applied to the concrete
removal `exRemoveTwiceDb` → the emptied store. -/
theorem removeParticipant_repeat_errors_witness :
    removeParticipant (⟨[], [], []⟩ : Db) "c" "U"
      = .error "Participante no encontrado en la conversación" :=
  removeParticipant_repeat_errors exRemoveTwiceDb ⟨[], [], []⟩ "c" "U" (by rfl)

/-! ## Cascade deletion and ownership transfer helpers -/

theorem getConversation_deleteConversation_self (db : Db) (cid : String) :
    getConversation (deleteConversation db cid) cid = none := by
  unfold getConversation deleteConversation
  rw [List.find?_eq_none]
  intro c hc
  have := (List.mem_filter.1 hc).2
  simp only [bne_iff_ne, ne_eq] at this
  simp [this]

theorem getConversationMessages_deleteConversationMessages (db : Db) (cid : String) :
    getConversationMessages (deleteConversationMessages db cid).1 cid = [] := by
  unfold getConversationMessages deleteConversationMessages
  show (db.messages.filter _).filter _ = []
  rw [List.filter_filter, List.filter_eq_nil_iff]
  intro m _
  by_cases hm : (m.conversationId == cid) = true <;> simp [bne, hm]

theorem find?_other_eq_none {l : List ParticipantRow} {uid : String}
    (hall : ∀ p ∈ l, p.userId = uid) :
    l.find? (fun p => p.userId != uid) = none := by
  rw [List.find?_eq_none]
  intro x hx
  simp [hall x hx]

theorem filter_other_eq_nil {l : List ParticipantRow} {uid : String}
    (hall : ∀ p ∈ l, p.userId = uid) :
    l.filter (fun p => !(p.userId == uid)) = [] := by
  rw [List.filter_eq_nil_iff]
  intro x hx
  simp [hall x hx]

theorem getParticipant_isSome_of_any {db : Db} {cid uid : String}
    (hmem : (getConversationParticipants db cid).any (fun p => p.userId == uid) = true) :
    (getParticipant db cid uid).isSome = true := by
  rcases List.any_eq_true.1 hmem with ⟨p, hp, hpu⟩
  have hpm := mem_participants_of_mem_getConversationParticipants hp
  have hpu' : p.userId = uid := by simpa using hpu
  cases hfind : getParticipant db cid uid with
  | some _ => rfl
  | none =>
    exfalso
    have := List.find?_eq_none.1 hfind p hpm.1
    simp [hpm.2, hpu'] at this

theorem one_lt_length_of_two_mem {α : Type} {l : List α} {a b : α}
    (ha : a ∈ l) (hb : b ∈ l) (hab : a ≠ b) : 1 < l.length := by
  cases l with
  | nil => cases ha
  | cons x t =>
    cases t with
    | nil =>
      rcases List.mem_singleton.1 ha with rfl
      rcases List.mem_singleton.1 hb with rfl
      exact absurd rfl hab
    | cons y s => simp [List.length_cons]

theorem getConversation_updateCreatedBy_self {db : Db} {cid : String}
    {conversation : Conversation} (newOwner : String)
    (h : getConversation db cid = some conversation) :
    getConversation (updateConversationCreatedBy db cid newOwner) cid
      = some { conversation with createdBy := newOwner } := by
  unfold getConversation updateConversationCreatedBy at *
  show (db.conversations.map _).find? _ = _
  rw [find?_map_if (fun c : Conversation => c.id == cid)
    (fun c : Conversation => { c with createdBy := newOwner }) (fun a ha => ha)
    db.conversations, h]
  rfl

/-- C5 (confirmed): when a leave removes the last active participant of a
conversation (every membership row of C belongs to the leaver), the
cascade fires: `handleLeaveGroup` reports the group deleted, and
afterwards `getConversation` returns nothing and
`getConversationMessages` returns no messages.
(`deleteConversationMessages` is modelled from the spec — its definition
is absent from the sources.) -/
theorem leaveGroup_cascade_deletes (db : Db) (cid uid : String)
    (conversation : Conversation)
    (hconv : getConversation db cid = some conversation)
    (htype : conversation.convType = "group")
    (hmem : (getConversationParticipants db cid).any (fun p => p.userId == uid) = true)
    (hall : ∀ p ∈ getConversationParticipants db cid, p.userId = uid) :
    ∃ db' evs k, handleLeaveGroup db cid uid = (db', evs, .okDeleted k) ∧
      getConversation db' cid = none ∧ getConversationMessages db' cid = [] := by
  have hfind : (getConversationParticipants db cid).find? (fun p => p.userId != uid) = none :=
    find?_other_eq_none hall
  have hSome := getParticipant_isSome_of_any hmem
  have hremove := removeParticipant_of_isSome hSome
  have hafter := getConversationParticipants_removeOk hremove
  rw [filter_other_eq_nil hall] at hafter
  have hnone2 : getParticipant { db with participants := (db.participants.filter (fun r =>
      !(r.conversationId == cid && r.userId == uid))) } cid uid = none :=
    find?_filter_out _ _
  unfold handleLeaveGroup
  rw [hconv]
  dsimp only
  rw [htype]
  simp only [bne_self_eq_false, Bool.false_eq_true, if_false, hmem, Bool.not_true, hfind,
    Option.map_none', ite_self]
  unfold leaveGroupRemoveStage
  rw [hremove]
  unfold leaveGroupAfterRemoval
  dsimp only
  rw [hnone2]
  simp only [Option.isSome_none, Bool.false_eq_true, if_false]
  unfold leaveGroupFinish
  dsimp only
  simp only [hafter, List.any_nil, List.length_nil, List.foldl_nil, beq_self_eq_true,
    if_true, Bool.false_eq_true, if_false]
  refine ⟨_, _, _, rfl, ?_, ?_⟩
  · exact getConversation_deleteConversation_self _ cid
  · rw [getConversationMessages_congr (messages_deleteConversation _ cid)]
    exact getConversationMessages_deleteConversationMessages _ cid

/-- C5 witness: the sole member of `exSoloGroupDb` leaves; the group and
its one message become unreachable. -/
theorem leaveGroup_cascade_deletes_witness :
    ∃ db' evs k, handleLeaveGroup exSoloGroupDb "g" "A" = (db', evs, .okDeleted k) ∧
      getConversation db' "g" = none ∧ getConversationMessages db' "g" = [] :=
  leaveGroup_cascade_deletes exSoloGroupDb "g" "A"
    ⟨"g", "group", some "grp", none, ["A"], "A", 0, 0⟩ (by rfl) rfl (by decide) (by decide)

/-- C6 (confirmed): when the group's creator leaves while other active
members remain, `handleLeaveGroup` rewrites `createdBy` to the first other
participant found before removing the leaver's row; the conversation is
not deleted, and its `createdBy` afterwards is the id of a remaining
active participant.  (`updateConversationCreatedBy` is modelled from the
spec — its definition is absent from the sources.) -/
theorem leaveGroup_ownership_transfer (db : Db) (cid uid : String)
    (conversation : Conversation) (q : ParticipantRow)
    (hconv : getConversation db cid = some conversation)
    (htype : conversation.convType = "group")
    (howner : conversation.createdBy = uid)
    (hmem : (getConversationParticipants db cid).any (fun p => p.userId == uid) = true)
    (hfind : (getConversationParticipants db cid).find? (fun p => p.userId != uid) = some q) :
    ∃ db' evs, handleLeaveGroup db cid uid = (db', evs, .ok) ∧
      getConversation db' cid = some { conversation with createdBy := q.userId } ∧
      q ∈ getConversationParticipants db' cid := by
  have hq_mem : q ∈ getConversationParticipants db cid := List.mem_of_find?_eq_some hfind
  have hq_ne : q.userId ≠ uid := by
    have := List.find?_some hfind
    simpa using this
  rcases List.any_eq_true.1 hmem with ⟨r, hr, hru⟩
  have hru' : r.userId = uid := by simpa using hru
  have hqr : q ≠ r := fun h => hq_ne (h ▸ hru')
  have hgt : (getConversationParticipants db cid).length > 1 :=
    one_lt_length_of_two_mem hq_mem hr hqr
  have hSome := getParticipant_isSome_of_any hmem
  have hSome1 : (getParticipant (updateConversationCreatedBy db cid q.userId) cid uid).isSome
      = true := by
    rw [getParticipant_congr (participants_updateConversationCreatedBy db cid q.userId)]
    exact hSome
  have hremove1 := removeParticipant_of_isSome hSome1
  have hparts1 : getConversationParticipants (updateConversationCreatedBy db cid q.userId) cid
      = getConversationParticipants db cid :=
    getConversationParticipants_congr (participants_updateConversationCreatedBy db cid q.userId) cid
  have hafter1 := getConversationParticipants_removeOk hremove1
  rw [hparts1] at hafter1
  have hq_after : q ∈ (getConversationParticipants db cid).filter (fun p => !(p.userId == uid)) := by
    rw [List.mem_filter]
    exact ⟨hq_mem, by simp [hq_ne]⟩
  have hanyafter : (((getConversationParticipants db cid).filter
      (fun p => !(p.userId == uid))).any (fun p => p.userId == uid)) = false := by
    rw [Bool.eq_false_iff]
    intro hcon
    rcases List.any_eq_true.1 hcon with ⟨x, hx, hxu⟩
    have := (List.mem_filter.1 hx).2
    rw [hxu] at this
    cases this
  have hlenafter : (((getConversationParticipants db cid).filter
      (fun p => !(p.userId == uid))).length == 0) = false := by
    rw [beq_eq_false_iff_ne]
    intro h0
    exact List.ne_nil_of_mem hq_after (List.length_eq_zero.1 h0)
  have hnone2 : getParticipant { updateConversationCreatedBy db cid q.userId with
      participants := ((updateConversationCreatedBy db cid q.userId).participants.filter
        (fun r => !(r.conversationId == cid && r.userId == uid))) } cid uid = none :=
    find?_filter_out _ _
  unfold handleLeaveGroup
  rw [hconv]
  dsimp only
  rw [htype]
  simp only [bne_self_eq_false, Bool.false_eq_true, if_false, hmem, Bool.not_true,
    howner, beq_self_eq_true, Bool.true_and, decide_eq_true hgt, if_true, hfind,
    Option.map_some']
  unfold leaveGroupRemoveStage
  rw [hremove1]
  unfold leaveGroupAfterRemoval
  dsimp only
  rw [hnone2]
  simp only [Option.isSome_none, Bool.false_eq_true, if_false]
  unfold leaveGroupFinish
  dsimp only
  simp only [hafter1, hanyafter, hlenafter, Bool.false_eq_true, if_false]
  refine ⟨_, _, rfl, ?_, ?_⟩
  · rw [getConversation_congr (show ({ updateConversationCreatedBy db cid q.userId with
        participants := ((updateConversationCreatedBy db cid q.userId).participants.filter
          (fun r => !(r.conversationId == cid && r.userId == uid))) } : Db).conversations
        = (updateConversationCreatedBy db cid q.userId).conversations from rfl)]
    exact htype ▸ getConversation_updateCreatedBy_self q.userId hconv
  · rw [hafter1]
    exact hq_after

/-- C6 witness: owner A leaves the two-member group `exOwnerLeaveDb`; the
group survives with `createdBy = "B"`. -/
theorem leaveGroup_ownership_transfer_witness :
    ∃ db' evs, handleLeaveGroup exOwnerLeaveDb "g" "A" = (db', evs, .ok) ∧
      getConversation db' "g"
        = some ⟨"g", "group", some "grp", none, ["A", "B"], "B", 0, 0⟩ ∧
      (⟨"g", "B", 0, 0, some true, some 0⟩ : ParticipantRow)
        ∈ getConversationParticipants db' "g" :=
  leaveGroup_ownership_transfer exOwnerLeaveDb "g" "A"
    ⟨"g", "group", some "grp", none, ["A", "B"], "A", 0, 0⟩
    ⟨"g", "B", 0, 0, some true, some 0⟩
    (by rfl) rfl rfl (by decide) (by rfl)

/-! ## Edit-message branch lemmas -/

theorem find?_id_map_update {mid : String} {m : Message} (c : String) (t : Timestamp) :
    ∀ l : List Message, l.find? (fun x => x.id == mid) = some m →
    (l.map (fun x => if x.id == mid && x.conversationId == m.conversationId then
        { x with content := c, isEdited := true, updatedAt := some t } else x)).find?
      (fun x => x.id == mid)
    = some { m with content := c, isEdited := true, updatedAt := some t } := by
  intro l
  induction l with
  | nil => intro h; cases h
  | cons a rest ih =>
    intro h
    by_cases ha : (a.id == mid) = true
    · simp only [List.find?_cons, ha] at h
      have ham : a = m := by cases h; rfl
      subst ham
      rw [List.map_cons, if_pos (by simp [ha])]
      simp only [List.find?_cons, ha]
    · have ha' : (a.id == mid) = false := by simpa using ha
      simp only [List.find?_cons, ha'] at h
      rw [List.map_cons, if_neg (by simp [ha'])]
      simp only [List.find?_cons, ha']
      exact ih h

theorem getMessage_after_updateMessage {db : Db} {mid : String} {m : Message}
    (h : getMessage db mid = some m) (c : String) (t : Timestamp) :
    getMessage { db with messages := (db.messages.map (fun x =>
      if x.id == mid && x.conversationId == m.conversationId then
        { x with content := c, isEdited := true, updatedAt := some t }
      else x)) } mid
    = some { m with content := c, isEdited := true, updatedAt := some t } :=
  find?_id_map_update c t db.messages h

theorem handleEditMessage_notFound {db : Db} {mid : String}
    (h : getMessage db mid = none) (nowMs updateNow : Timestamp) (newContent uid : String) :
    handleEditMessage db nowMs updateNow mid newContent uid
      = (db, [⟨.caller, "edit_message_error", .errorText "Message not found"⟩],
         .errNotFound) := by
  unfold handleEditMessage
  rw [h]

theorem handleEditMessage_unauthorized {db : Db} {mid uid : String} {m : Message}
    (hm : getMessage db mid = some m) (hs : m.senderId ≠ uid)
    (nowMs updateNow : Timestamp) (newContent : String) :
    handleEditMessage db nowMs updateNow mid newContent uid
      = (db, [⟨.caller, "edit_message_error",
          .errorText "Unauthorized to edit this message"⟩], .errUnauthorized) := by
  unfold handleEditMessage
  rw [hm]
  dsimp only
  rw [if_pos (by simpa using hs)]

theorem handleEditMessage_notEditable {db : Db} {mid uid : String} {m : Message}
    (hm : getMessage db mid = some m) (hs : m.senderId = uid) (ht : m.messageType ≠ "text")
    (nowMs updateNow : Timestamp) (newContent : String) :
    handleEditMessage db nowMs updateNow mid newContent uid
      = (db, [⟨.caller, "edit_message_error",
          .errorText "Only text messages can be edited"⟩], .errNotEditable) := by
  unfold handleEditMessage
  rw [hm]
  dsimp only
  rw [if_neg (by simp [hs]), if_pos (by simpa using ht)]

theorem handleEditMessage_windowExpired {db : Db} {mid uid : String} {m : Message}
    {nowMs : Timestamp}
    (hm : getMessage db mid = some m) (hs : m.senderId = uid) (ht : m.messageType = "text")
    (hw : (nowMs : Int) - (m.timestamp : Int) > 900000)
    (updateNow : Timestamp) (newContent : String) :
    handleEditMessage db nowMs updateNow mid newContent uid
      = (db, [⟨.caller, "edit_message_error",
          .errorText "Message can only be edited within 15 minutes"⟩], .errWindowExpired) := by
  unfold handleEditMessage
  rw [hm]
  dsimp only
  rw [if_neg (by simp [hs]), if_neg (by simp [ht]), if_pos (by omega)]

theorem handleEditMessage_success {db : Db} {mid uid : String} {m : Message}
    {nowMs : Timestamp}
    (hm : getMessage db mid = some m) (hs : m.senderId = uid) (ht : m.messageType = "text")
    (hw : (nowMs : Int) - (m.timestamp : Int) ≤ 900000)
    (updateNow : Timestamp) (newContent : String) :
    handleEditMessage db nowMs updateNow mid newContent uid
      = ({ db with messages := (db.messages.map (fun x =>
            if x.id == mid && x.conversationId == m.conversationId then
              { x with content := newContent, isEdited := true, updatedAt := some updateNow }
            else x)) },
         [⟨.room m.conversationId, "message_edited",
           .message { m with content := newContent, isEdited := true, updatedAt := some updateNow }⟩],
         .ok) := by
  have hupd : updateMessage db updateNow mid newContent
      = .ok { db with messages := (db.messages.map (fun x =>
          if x.id == mid && x.conversationId == m.conversationId then
            { x with content := newContent, isEdited := true, updatedAt := some updateNow }
          else x)) } := by
    unfold updateMessage
    rw [hm]
  unfold handleEditMessage
  rw [hm]
  dsimp only
  rw [if_neg (by simp [hs]), if_neg (by simp [ht]), if_neg (by omega), hupd]
  dsimp only
  rw [getMessage_after_updateMessage hm newContent updateNow]

/-- C7 (confirmed): `edit_message` fails with MessageNotFound when the
message is absent, Unauthorized on sender mismatch, NotEditable for
non-text messages, and the edit-window error when the message is more than
15 minutes (900000 ms) old — checked in that order, each failure emitted
as a single `edit_message_error` event to the acting session only.  An
edit at `timestamp + 15min + 1s` fails while one at
`timestamp + 14min59s` succeeds, persists the new content with `isEdited`
set, and emits `message_edited` to the conversation room. -/
theorem editMessage_spec (db : Db) (nowMs updateNow : Timestamp)
    (mid newContent uid : String) :
    (getMessage db mid = none →
      handleEditMessage db nowMs updateNow mid newContent uid
        = (db, [⟨.caller, "edit_message_error", .errorText "Message not found"⟩],
           .errNotFound))
    ∧ (∀ m, getMessage db mid = some m → m.senderId ≠ uid →
        handleEditMessage db nowMs updateNow mid newContent uid
          = (db, [⟨.caller, "edit_message_error",
              .errorText "Unauthorized to edit this message"⟩], .errUnauthorized))
    ∧ (∀ m, getMessage db mid = some m → m.senderId = uid → m.messageType ≠ "text" →
        handleEditMessage db nowMs updateNow mid newContent uid
          = (db, [⟨.caller, "edit_message_error",
              .errorText "Only text messages can be edited"⟩], .errNotEditable))
    ∧ (∀ m, getMessage db mid = some m → m.senderId = uid → m.messageType = "text" →
        (nowMs : Int) - (m.timestamp : Int) > 900000 →
        handleEditMessage db nowMs updateNow mid newContent uid
          = (db, [⟨.caller, "edit_message_error",
              .errorText "Message can only be edited within 15 minutes"⟩],
             .errWindowExpired))
    ∧ (∀ m, getMessage db mid = some m → m.senderId = uid → m.messageType = "text" →
        (nowMs : Int) - (m.timestamp : Int) ≤ 900000 →
        handleEditMessage db nowMs updateNow mid newContent uid
          = ({ db with messages := (db.messages.map (fun x =>
                if x.id == mid && x.conversationId == m.conversationId then
                  { x with content := newContent, isEdited := true, updatedAt := some updateNow }
                else x)) },
             [⟨.room m.conversationId, "message_edited",
               .message { m with content := newContent, isEdited := true, updatedAt := some updateNow }⟩],
             .ok) ∧
        getMessage (handleEditMessage db nowMs updateNow mid newContent uid).1 mid
          = some { m with content := newContent, isEdited := true, updatedAt := some updateNow })
    ∧ (∀ m, getMessage db mid = some m → m.senderId = uid → m.messageType = "text" →
        nowMs = m.timestamp + 901000 →
        (handleEditMessage db nowMs updateNow mid newContent uid).2.2 = .errWindowExpired)
    ∧ (∀ m, getMessage db mid = some m → m.senderId = uid → m.messageType = "text" →
        nowMs = m.timestamp + 899000 →
        (handleEditMessage db nowMs updateNow mid newContent uid).2.2 = .ok) := by
  refine ⟨?_, ?_, ?_, ?_, ?_, ?_, ?_⟩
  · intro h
    exact handleEditMessage_notFound h nowMs updateNow newContent uid
  · intro m hm hs
    exact handleEditMessage_unauthorized hm hs nowMs updateNow newContent
  · intro m hm hs ht
    exact handleEditMessage_notEditable hm hs ht nowMs updateNow newContent
  · intro m hm hs ht hw
    exact handleEditMessage_windowExpired hm hs ht hw updateNow newContent
  · intro m hm hs ht hw
    have hmain := handleEditMessage_success hm hs ht hw updateNow newContent
    refine ⟨hmain, ?_⟩
    rw [hmain]
    exact getMessage_after_updateMessage hm newContent updateNow
  · intro m hm hs ht hnow
    subst hnow
    have hw : ((m.timestamp + 901000 : Timestamp) : Int) - (m.timestamp : Int) > 900000 := by
      omega
    rw [handleEditMessage_windowExpired hm hs ht hw updateNow newContent]
  · intro m hm hs ht hnow
    subst hnow
    have hw : ((m.timestamp + 899000 : Timestamp) : Int) - (m.timestamp : Int) ≤ 900000 := by
      omega
    rw [handleEditMessage_success hm hs ht hw updateNow newContent]

/-- C7 witness: the two edit-window boundaries on the concrete store
`exEditDb` (message created at 1000 ms): at `+901000` ms the edit is
rejected with the window error, at `+899000` ms it succeeds. -/
theorem editMessage_spec_witness :
    (handleEditMessage exEditDb (1000 + 901000) 7 "m1" "nuevo" "A").2.2
      = .errWindowExpired
    ∧ (handleEditMessage exEditDb (1000 + 899000) 7 "m1" "nuevo" "A").2.2 = .ok := by
  constructor
  · exact (editMessage_spec exEditDb (1000 + 901000) 7 "m1" "nuevo" "A").2.2.2.2.2.1
      ⟨"m1", "g", "A", "hola", "text", 1000, false, false, none, false, none⟩
      (by rfl) rfl rfl rfl
  · exact (editMessage_spec exEditDb (1000 + 899000) 7 "m1" "nuevo" "A").2.2.2.2.2.2
      ⟨"m1", "g", "A", "hola", "text", 1000, false, false, none, false, none⟩
      (by rfl) rfl rfl rfl

/-! ## Reply preview -/

theorem length_jsSubstring0 (s : String) (n : Nat) :
    (jsSubstring0 s n).length = min n s.length := by
  show (s.data.take n).length = min n s.data.length
  exact List.length_take n s.data

/-- C8 (confirmed): replying to a text original longer than 100 characters
derives a `replyPreview` of exactly 100 characters — `substring(0, 97)` of
the original content followed by `'...'` — carried on the `reply_received`
room event; originals of at most 100 characters are used unchanged. -/
theorem replyPreview_spec (db : Db) (now persistNow : Timestamp) (parseOk : Bool)
    (parsedFileName : Option String)
    (conversationId senderId content messageType replyTo messageId : String)
    (orig : Message)
    (hmem : (getConversationParticipants db conversationId).any
      (fun p => p.userId == senderId) = true)
    (horig : getMessage db replyTo = some orig)
    (hcid : orig.conversationId = conversationId)
    (htext : orig.messageType = "text") :
    (∃ db', handleSendReply db now persistNow parseOk parsedFileName conversationId
        senderId content messageType replyTo messageId
      = (db',
         [⟨.room conversationId, "reply_received",
           .reply
             { id := messageId, conversationId := conversationId, senderId := senderId,
               content := content, messageType := messageType, timestamp := now,
               isEdited := false, isDeleted := false, replyTo := some replyTo,
               isReply := true, updatedAt := none }
             (deriveReplyPreview orig parseOk parsedFileName)⟩,
          ⟨.caller, "reply_sent_success", .info⟩],
         .ok))
    ∧ (orig.content.length > 100 →
        deriveReplyPreview orig parseOk parsedFileName
          = jsSubstring0 orig.content 97 ++ "..." ∧
        (deriveReplyPreview orig parseOk parsedFileName).length = 100)
    ∧ (orig.content.length ≤ 100 →
        deriveReplyPreview orig parseOk parsedFileName = orig.content) := by
  have hbase : deriveReplyPreview orig parseOk parsedFileName
      = (if orig.content.length > 100 then jsSubstring0 orig.content 97 ++ "..."
         else orig.content) := by
    by_cases h100 : orig.content.length > 100
    · rw [if_pos h100]
      simp [deriveReplyPreview, htext, h100]
    · rw [if_neg h100]
      simp [deriveReplyPreview, htext, h100]
  refine ⟨?_, ?_, ?_⟩
  · unfold handleSendReply
    rw [if_neg (by simp [hmem]), horig]
    dsimp only
    rw [if_neg (by simp [hcid])]
    exact ⟨_, rfl⟩
  · intro hlen
    rw [hbase, if_pos hlen]
    refine ⟨rfl, ?_⟩
    rw [String.length_append, length_jsSubstring0, min_eq_left (by omega)]
    decide
  · intro hlen
    rw [hbase, if_neg (by omega)]

set_option maxRecDepth 4000 in
/-- C8 witness: replying in `exReplyDb` to the 250-character text message
yields a preview of exactly 100 characters: the first 97 characters plus
`'...'`. -/
theorem replyPreview_spec_witness :
    deriveReplyPreview
        ⟨"m0", "g", "A", ⟨List.replicate 250 'x'⟩, "text", 3, false, false, none, false, none⟩
        false none
      = jsSubstring0 (⟨List.replicate 250 'x'⟩ : String) 97 ++ "..." ∧
    (deriveReplyPreview
        ⟨"m0", "g", "A", ⟨List.replicate 250 'x'⟩, "text", 3, false, false, none, false, none⟩
        false none).length = 100 :=
  (replyPreview_spec exReplyDb 5 6 false none "g" "B" "re" "text" "m0" "m9"
    ⟨"m0", "g", "A", ⟨List.replicate 250 'x'⟩, "text", 3, false, false, none, false, none⟩
    (by decide) (by rfl) rfl rfl).2.1
    (by show (100 : Nat) < (List.replicate 250 'x').length
        rw [List.length_replicate]
        omega)

/-! ## Persist-time timestamps -/

theorem messages_sendFold {cid sid : String} :
    ∀ (parts : List ParticipantRow) (db : Db),
    (parts.foldl (sendStep cid sid) db).messages = db.messages := by
  intro parts
  induction parts with
  | nil => intro db; rfl
  | cons p rest ih =>
    intro db
    show (rest.foldl (sendStep cid sid) (sendStep cid sid db p)).messages = _
    rw [ih]
    unfold sendStep
    split
    · rfl
    · exact messages_updateParticipantReadStatus db cid p.userId (p.unreadCount + 1) p.lastReadAt

theorem getMessage_createMessage_fresh {db : Db} {m : Message}
    (hfresh : ∀ x ∈ db.messages, x.id ≠ m.id) (persistNow : Timestamp) :
    getMessage (createMessage db persistNow m) m.id
      = some { m with timestamp := persistNow } := by
  unfold createMessage getMessage
  have hany : (db.messages.any fun x => x.id == m.id && x.conversationId == m.conversationId)
      = false := by
    rw [Bool.eq_false_iff]
    intro hcon
    rcases List.any_eq_true.1 hcon with ⟨x, hx, hxx⟩
    have : x.id = m.id := by
      simp only [Bool.and_eq_true, beq_iff_eq] at hxx
      exact hxx.1
    exact hfresh x hx this
  rw [if_neg (by simp [hany])]
  dsimp only
  rw [List.find?_append]
  have h1 : db.messages.find? (fun x => x.id == m.id) = none := by
    rw [List.find?_eq_none]
    intro x hx
    simp [hfresh x hx]
  rw [h1]
  simp [List.find?_cons]

/-- C9 (confirmed): `createMessage` stores the item with a fresh
persist-time clock read as `timestamp`, overwriting whatever timestamp the
caller supplied; consequently the `message_received` event emitted by
`handleSendMessage` (built from the handler-time clock read `now`) carries
a timestamp that is `now` while the stored message carries `persistNow` —
the two differ whenever the clock reads differ. -/
theorem createMessage_timestamp_spec (db : Db) (now persistNow : Timestamp)
    (online : List String) (conversationId senderId content messageType messageId : String)
    (conversation : Conversation)
    (hconv : getConversation db conversationId = some conversation) :
    (∀ m : Message, (∀ x ∈ db.messages, x.id ≠ m.id) →
      getMessage (createMessage db persistNow m) m.id
        = some { m with timestamp := persistNow })
    ∧ ((∀ x ∈ db.messages, x.id ≠ messageId) →
       ∃ db' evs, handleSendMessage db online now persistNow conversationId senderId content
           messageType messageId = some (db', evs) ∧
         evs.head? = some ⟨.room conversationId, "message_received",
           .message
             { id := messageId, conversationId := conversationId, senderId := senderId,
               content := content, messageType := messageType, timestamp := now,
               isEdited := false, isDeleted := false, replyTo := none, isReply := false,
               updatedAt := none }⟩ ∧
         getMessage db' messageId
           = some
             { id := messageId, conversationId := conversationId, senderId := senderId,
               content := content, messageType := messageType, timestamp := persistNow,
               isEdited := false, isDeleted := false, replyTo := none, isReply := false,
               updatedAt := none }) := by
  constructor
  · intro m hfresh
    exact getMessage_createMessage_fresh hfresh persistNow
  · intro hfresh
    unfold handleSendMessage
    dsimp only
    rw [getConversation_createMessage, hconv, getConversationParticipants_createMessage,
      sendUnreadLoop_eq_some]
    refine ⟨_, _, rfl, rfl, ?_⟩
    rw [getMessage_congr (messages_sendFold _ _)]
    exact getMessage_createMessage_fresh (fun x hx => hfresh x hx) persistNow

/-- C9 witness: in `exTimestampDb`, a message sent with handler clock 5
and persist clock 6 is broadcast with timestamp 5 but stored with
timestamp 6. -/
theorem createMessage_timestamp_spec_witness :
    ∃ db' evs, handleSendMessage exTimestampDb ["B"] 5 6 "g" "A" "hola" "text" "m9"
        = some (db', evs) ∧
      evs.head? = some ⟨.room "g", "message_received",
        .message ⟨"m9", "g", "A", "hola", "text", 5, false, false, none, false, none⟩⟩ ∧
      getMessage db' "m9"
        = some ⟨"m9", "g", "A", "hola", "text", 6, false, false, none, false, none⟩ :=
  (createMessage_timestamp_spec exTimestampDb 5 6 ["B"] "g" "A" "hola" "text" "m9"
    ⟨"g", "group", some "grp", none, ["A", "B"], "A", 0, 0⟩ (by rfl)).2 (by decide)

/-! ## Sorted message listing -/

/-- C10 (confirmed): `GET api/messages/:conversationId` returns exactly the
conversation's stored messages (a permutation of the unsorted scan),
sorted ascending by their `timestamp` field. -/
theorem messagesEndpoint_sorted (db : Db) (cid : String) :
    List.Pairwise (fun a b : Message => a.timestamp ≤ b.timestamp)
      (ctrlGetConversationMessages db cid)
    ∧ (ctrlGetConversationMessages db cid).Perm (getConversationMessages db cid) := by
  constructor
  · unfold ctrlGetConversationMessages
    have hs := List.sorted_mergeSort
      (fun (a b c : Message) (h1 : (decide (a.timestamp ≤ b.timestamp)) = true)
           (h2 : (decide (b.timestamp ≤ c.timestamp)) = true) => by
        simp only [decide_eq_true_eq] at h1 h2 ⊢
        exact Nat.le_trans h1 h2)
      (fun (a b : Message) => by simp [Nat.le_total])
      (getConversationMessages db cid)
    exact hs.imp (fun h => by simpa using h)
  · exact List.mergeSort_perm _ _

/-! ## The no-inactive-row invariant, per handler -/

theorem noInactive_leaveGroupFinish {db3 : Db} (cid uid : String)
    (hn : NoInactive db3) : NoInactive (leaveGroupFinish db3 cid uid).1 := by
  unfold leaveGroupFinish
  dsimp only
  split
  · exact hn
  · split
    · dsimp only
      refine noInactive_congr ?_
        (@noInactive_foldSwallow cid (getConversationParticipants db3 cid) db3 hn)
      rw [participants_deleteConversation, participants_deleteConversationMessages]
    · exact hn

theorem noInactive_leaveGroupAfterRemoval {db2 : Db} (cid uid : String)
    (hn : NoInactive db2) : NoInactive (leaveGroupAfterRemoval db2 cid uid).1 := by
  unfold leaveGroupAfterRemoval
  dsimp only
  split
  · exact noInactive_leaveGroupFinish cid uid (noInactive_removeSwallowed hn cid uid)
  · exact noInactive_leaveGroupFinish cid uid hn

theorem noInactive_leaveGroupRemoveStage {db1 : Db} (cid uid : String)
    (hn : NoInactive db1) : NoInactive (leaveGroupRemoveStage db1 cid uid).1 := by
  unfold leaveGroupRemoveStage
  cases hrem : removeParticipant db1 cid uid with
  | ok db2 => exact noInactive_leaveGroupAfterRemoval cid uid (noInactive_removeOk hrem hn)
  | error e =>
    dsimp only
    split
    · exact noInactive_leaveGroupAfterRemoval cid uid hn
    · exact hn

theorem noInactive_handleLeaveGroup (db : Db) (cid uid : String)
    (hn : NoInactive db) : NoInactive (handleLeaveGroup db cid uid).1 := by
  unfold handleLeaveGroup
  cases hconv : getConversation db cid with
  | none => exact hn
  | some conversation =>
    dsimp only
    split
    · exact hn
    · split
      · exact hn
      · split
        · rename_i newId heq
          exact noInactive_leaveGroupRemoveStage cid uid
            (noInactive_congr (participants_updateConversationCreatedBy db cid newId) hn)
        · exact noInactive_leaveGroupRemoveStage cid uid hn

theorem noInactive_ctrlRemoveStage {db1 : Db} (participantsBefore : List ParticipantRow)
    (isSelfRemoval : Bool) (cid uid : String) (hn : NoInactive db1) :
    NoInactive (ctrlRemoveStage db1 participantsBefore isSelfRemoval cid uid).1 := by
  unfold ctrlRemoveStage
  cases hrem : removeParticipant db1 cid uid with
  | error e => exact hn
  | ok db2 =>
    have hn2 : NoInactive db2 := noInactive_removeOk hrem hn
    dsimp only
    split
    · exact hn2
    · split
      · dsimp only
        refine noInactive_congr ?_
          (@noInactive_foldSwallow cid (getConversationParticipants db2 cid) db2 hn2)
        rw [participants_deleteConversation, participants_deleteConversationMessages]
      · exact hn2

theorem noInactive_ctrlRemoveParticipant (db : Db) (cid uid : String)
    (removedBy? : Option String) (hn : NoInactive db) :
    NoInactive (ctrlRemoveParticipant db cid uid removedBy?).1 := by
  unfold ctrlRemoveParticipant
  cases hconv : getConversation db cid with
  | none => exact hn
  | some conversation =>
    dsimp only
    split
    · exact hn
    · cases hpart : getParticipant db cid uid with
      | none => exact hn
      | some participant =>
        dsimp only
        split
        · rename_i newId heq
          exact noInactive_ctrlRemoveStage _ _ cid uid
            (noInactive_congr (participants_updateConversationCreatedBy db cid newId) hn)
        · exact noInactive_ctrlRemoveStage _ _ cid uid hn

theorem noInactive_handleSendMessage {db db' : Db} {evs : List Event}
    {online : List String} {now persistNow : Timestamp}
    {conversationId senderId content messageType messageId : String}
    (h : handleSendMessage db online now persistNow conversationId senderId content
      messageType messageId = some (db', evs))
    (hn : NoInactive db) : NoInactive db' := by
  unfold handleSendMessage at h
  dsimp only at h
  rcases Option.map_eq_some'.1 h with ⟨⟨dbr, evr⟩, hr, heq⟩
  cases heq
  exact (sendUnreadLoop_ok hr).2.2
    (noInactive_congr (participants_createMessage db persistNow _) hn)

theorem noInactive_ctrlUploadFile {db db' : Db} {evs : List Event}
    {online : List String} {now persistNow : Timestamp}
    {conversationId senderId fileJson fileName messageId : String}
    (h : ctrlUploadFile db online now persistNow conversationId senderId fileJson
      fileName messageId = some (db', evs))
    (hn : NoInactive db) : NoInactive db' := by
  unfold ctrlUploadFile at h
  dsimp only at h
  rcases Option.map_eq_some'.1 h with ⟨⟨dbr, evr⟩, hr, heq⟩
  cases heq
  exact (sendUnreadLoop_ok hr).2.2
    (noInactive_congr (participants_createMessage db persistNow _) hn)

theorem participants_handleEditMessage (db : Db) (nowMs updateNow : Timestamp)
    (mid newContent uid : String) :
    (handleEditMessage db nowMs updateNow mid newContent uid).1.participants
      = db.participants := by
  unfold handleEditMessage
  cases hm : getMessage db mid with
  | none => rfl
  | some message =>
    dsimp only
    split
    · rfl
    · split
      · rfl
      · split
        · rfl
        · cases hupd : updateMessage db updateNow mid newContent with
          | error e => rfl
          | ok db' =>
            rcases updateMessage_ok_eq hupd with ⟨m', hm', rfl⟩
            rfl

theorem participants_handleDeleteMessage (db : Db) (mid uid : String) :
    (handleDeleteMessage db mid uid).1.participants = db.participants := by
  unfold handleDeleteMessage
  cases hm : getMessage db mid with
  | none => rfl
  | some message =>
    dsimp only
    split
    · rfl
    · cases hdel : deleteMessage db mid with
      | error e => rfl
      | ok db' =>
        exact (messages_deleteMessage_ok hdel).1

theorem participants_handleSendReply (db : Db) (now persistNow : Timestamp)
    (parseOk : Bool) (parsedFileName : Option String)
    (conversationId senderId content messageType replyTo messageId : String) :
    (handleSendReply db now persistNow parseOk parsedFileName conversationId senderId
      content messageType replyTo messageId).1.participants = db.participants := by
  unfold handleSendReply
  dsimp only
  by_cases hmem : (!((getConversationParticipants db conversationId).any
      fun p => p.userId == senderId)) = true
  · rw [if_pos hmem]
  · rw [if_neg hmem]
    cases ho : getMessage db replyTo with
    | none => rfl
    | some originalMessage =>
      dsimp only
      split
      · rfl
      · exact participants_createMessage db persistNow _

theorem noInactive_ctrlCreateConversation (db : Db) (now : Timestamp) (newId : String)
    (convType : String) (name description : Option String) (participants : List String)
    (createdBy : String) (hn : NoInactive db) :
    NoInactive (ctrlCreateConversation db now newId convType name description
      participants createdBy) := by
  have hfold : NoInactive (participants.foldl (fun d userId =>
      addParticipant d now newId userId ⟨0, now, true⟩) (createConversation db now
      { id := newId, convType := convType, name := name, description := description,
        participants := participants, createdBy := createdBy, createdAt := now,
        updatedAt := now })) :=
    noInactive_foldAdd participants
      (noInactive_congr (participants_createConversation db now _) hn)
  unfold ctrlCreateConversation
  dsimp only
  split
  · exact hn
  · exact hfold

theorem noInactive_handleCreateGroup (db : Db) (now : Timestamp) (newId : String)
    (name description : Option String) (participants : List String) (createdBy : String)
    (hn : NoInactive db) :
    NoInactive (handleCreateGroup db now newId name description participants createdBy).1 := by
  unfold handleCreateGroup
  dsimp only
  exact noInactive_foldAdd participants
    (noInactive_congr (participants_createConversation db now _) hn)

theorem noInactive_ctrlAddParticipant (db : Db) (now : Timestamp) (cid uid : String)
    (hn : NoInactive db) : NoInactive (ctrlAddParticipant db now cid uid) := by
  unfold ctrlAddParticipant
  cases getConversation db cid with
  | none => exact hn
  | some conversation => exact noInactive_addParticipant hn now cid uid rfl

theorem noInactive_handleAddUserToGroup (db : Db) (now : Timestamp)
    (cid uid addedBy : String) (hn : NoInactive db) :
    NoInactive (handleAddUserToGroup db now cid uid addedBy).1 := by
  unfold handleAddUserToGroup
  cases getConversation db cid with
  | none => exact hn
  | some conversation => exact noInactive_addParticipant hn now cid uid rfl

theorem reachable_noInactive {db : Db} (h : Reachable db) : NoInactive db := by
  induction h with
  | empty => intro r hr; cases hr
  | createConversation now newId convType name description participants createdBy _ ih =>
    exact noInactive_ctrlCreateConversation _ now newId convType name description
      participants createdBy ih
  | addParticipantE now conversationId userId _ ih =>
    exact noInactive_ctrlAddParticipant _ now conversationId userId ih
  | createGroup now newId name description participants createdBy _ ih =>
    exact noInactive_handleCreateGroup _ now newId name description participants createdBy ih
  | addUserToGroup now conversationId userId addedBy _ ih =>
    exact noInactive_handleAddUserToGroup _ now conversationId userId addedBy ih
  | leaveGroup conversationId userId _ ih =>
    exact noInactive_handleLeaveGroup _ conversationId userId ih
  | removeParticipantE conversationId userId removedBy? _ ih =>
    exact noInactive_ctrlRemoveParticipant _ conversationId userId removedBy? ih
  | sendMessage online now persistNow conversationId senderId content messageType
      messageId _ hsend ih =>
    exact noInactive_handleSendMessage hsend ih
  | uploadFile online now persistNow conversationId senderId fileJson fileName
      messageId _ hup ih =>
    exact noInactive_ctrlUploadFile hup ih
  | markRead now conversationId userId _ ih =>
    exact noInactive_update ih conversationId userId 0 now
  | markReadE now conversationId userId _ ih =>
    exact noInactive_update ih conversationId userId 0 now
  | editMessage nowMs updateNow messageId newContent userId _ ih =>
    exact noInactive_congr
      (participants_handleEditMessage _ nowMs updateNow messageId newContent userId) ih
  | deleteMessageG messageId userId _ ih =>
    exact noInactive_congr (participants_handleDeleteMessage _ messageId userId) ih
  | sendReply now persistNow parseOk parsedFileName conversationId senderId content
      messageType replyTo messageId _ ih =>
    exact noInactive_congr (participants_handleSendReply _ now persistNow parseOk
      parsedFileName conversationId senderId content messageType replyTo messageId) ih
  | deleteConversationE conversationId _ ih =>
    exact noInactive_congr (participants_deleteConversation _ conversationId) ih
  | deleteMessageE messageId _ hdel ih =>
    exact noInactive_congr (messages_deleteMessage_ok hdel).1 ih
  | deleteAllMessagesE _ ih =>
    exact noInactive_congr rfl ih

/-- C3 (confirmed): in every store state reachable through the system's
own write paths, `getConversationParticipants` (the code's
`getActiveParticipants`) never returns a row whose `isActive` flag is
`false`: no operation of the repository ever stores `isActive = false` —
`addParticipant` is always invoked with `isActive: true` and removal
hard-deletes the row — so no such row can exist to be returned. -/
theorem getConversationParticipants_no_inactive {db : Db} (h : Reachable db)
    (cid : String) :
    ∀ p ∈ getConversationParticipants db cid, p.isActive ≠ some false :=
  fun p hp => reachable_noInactive h p (List.mem_of_mem_filter hp)

/-- C3 witness: the invariant at the concrete reachable store
`exReachedDb` (a two-member group created from fresh tables), whose
participant list is non-empty. -/
theorem getConversationParticipants_no_inactive_witness :
    (∀ p ∈ getConversationParticipants exReachedDb "g1", p.isActive ≠ some false)
    ∧ (getConversationParticipants exReachedDb "g1").length = 2 :=
  ⟨getConversationParticipants_no_inactive
    (Reachable.createGroup 0 "g1" (some "grp") none ["A", "B"] "A" Reachable.empty) "g1",
   by decide⟩

end DaviChat
